import Mathlib

/-!
# Verification of the portfolio backtesting engine

Shallow embedding of the backtesting engine of the trading-platform
repository (the `Backtesting` page component: `calculateAdvancedRatios`,
`calculateDynamicLeverage`, `getSimulationParams`, and the body of
`handleRunBacktest`), together with theorems settling the specification
claims about it.

Modelling conventions:
* JavaScript numbers are modelled as exact rationals (`ℚ`).  Where a claim
  is specifically about IEEE special values (division by zero, `NaN`,
  `isFinite`), a dedicated type `JsNum` extends `ℚ` with `NaN` and `±∞`
  and implements the IEEE special-value rules exactly (no rounding, no
  negative zero).
* `Math.random()` draws are modelled by an injected oracle producing, for
  every (strategy index, bar index) pair, the three values in `[0,1)` the
  loop body may consume.  `Math.sqrt` and `Math.pow` are injected as
  function parameters of the risk-ratio calculator.
* Dates and timestamps are strings; `t.split('T')[0]` is modelled by
  `dateOf`.  The JS object used as the daily-P&L map is modelled as an
  insertion-ordered association list, and `Object.keys(...).sort()` as an
  insertion sort by the lexicographic string order (keys are ASCII dates,
  on which JS UTF-16 ordering and the Lean string order agree).
* The asset-universe ticker table and the symbol → asset-class table are
  external data collaborators and are injected as parameters; the small
  `ASSET_LEVERAGE_MAP` constant is embedded literally.
-/

namespace TradingPlatform

/-- Character-level helper for `t.split('T')[0]`: everything before the
first `'T'` (the whole string when no `'T'` occurs, matching JS `split`). -/
def splitCharsOnT : List Char → List Char
  | [] => []
  | ch :: cs => if ch = 'T' then [] else ch :: splitCharsOnT cs

/-- `t.split('T')[0]`: the date part of a timestamp string. -/
def dateOf (t : String) : String := ⟨splitCharsOnT t.data⟩

/-- Lexicographic comparison of strings by character code, as the default
JS `Array.prototype.sort` comparator orders strings. -/
def charListLe : List Char → List Char → Bool
  | [], _ => true
  | _ :: _, [] => false
  | a :: as, b :: bs => if a < b then true else if b < a then false else charListLe as bs

/-- String comparison used to model `Object.keys(dailyPnl).sort()`. -/
def strLe (a b : String) : Bool := charListLe a.data b.data

/-- Insert a string into an already sorted list. -/
def insertSorted (x : String) : List String → List String
  | [] => [x]
  | y :: ys => if strLe x y then x :: y :: ys else y :: insertSorted x ys

/-- `keys.sort()`: ascending sort of the date keys. -/
def sortStrings (l : List String) : List String := l.foldr insertSorted []

/-- `[...new Set(l)]`: order-preserving deduplication keeping the first
occurrence of each element, as the JS `Set` constructor does. -/
def jsSetDedupAux : List String → List String → List String
  | [], _ => []
  | x :: xs, seen =>
    if x ∈ seen then jsSetDedupAux xs seen
    else x :: jsSetDedupAux xs (x :: seen)

/-- `[...new Set(l)]` on a list of strings. -/
def jsSetDedup (l : List String) : List String := jsSetDedupAux l []

/-- `Math.round x = ⌊x + 0.5⌋` (JS rounds ties toward `+∞`). -/
def jsRound (q : ℚ) : ℤ := ⌊q + 1 / 2⌋

/-- Embedding of `calculateDynamicLeverage` (Backtesting page, lines
40–49).  Note the source computes `Math.min(rr, maxRR)` only: there is no
lower clamp at `minRR`. -/
def calculateDynamicLeverage (rr : ℚ) (maxLeverage : ℤ) : ℤ :=
  let minRR : ℚ := 5 / 2
  let maxRR : ℚ := 5
  let clampedRR := min rr maxRR
  let rrRange := maxRR - minRR
  let leverageRange : ℚ := (maxLeverage : ℚ) - 2
  if rrRange ≤ 0 ∨ leverageRange ≤ 0 then 2
  else jsRound (min (2 + ((clampedRR - minRR) / rrRange) * leverageRange) (maxLeverage : ℚ))

/-- The `AssetClass` enum from the repository types. -/
inductive AssetClass where
  | USStocks | GlobalStocks | UKStocks | EUStocks | AsianStocks
  | Crypto | Commodities | Forex | Bonds | Indices
deriving DecidableEq, Repr, Inhabited

/-- The `ASSET_LEVERAGE_MAP` constant from `constants.ts`. -/
def ASSET_LEVERAGE_MAP : AssetClass → ℤ
  | .USStocks => 5
  | .GlobalStocks => 5
  | .UKStocks => 5
  | .EUStocks => 5
  | .AsianStocks => 5
  | .Crypto => 10
  | .Commodities => 20
  | .Forex => 30
  | .Bonds => 30
  | .Indices => 20

/-- The `AssetUniverse` enum from the repository types. -/
inductive AssetUniverse where
  | SP500 | EU50 | FTSE100 | Asian50 | Bonds | Indices | Forex | Commodities
deriving DecidableEq, Repr

/-- The backtesting timeframe selector (`'5Min' | '15Min' | '1Hour' | '1Day'`). -/
inductive Timeframe where
  | m5 | m15 | h1 | d1
deriving DecidableEq, Repr

/-- The record returned by `getSimulationParams`. -/
structure SimParams where
  barsPerYear : ℚ
  tradeProbability : ℚ
  holdingTime : String
deriving DecidableEq, Repr

/-- Embedding of `getSimulationParams` (lines 53–61). -/
def getSimulationParams : Timeframe → SimParams
  | .m5 => ⟨252 * 7 * 12, 2 / 1000, "5-60m"⟩
  | .m15 => ⟨252 * 7 * 4, 7 / 1000, "15-180m"⟩
  | .h1 => ⟨252 * 7, 3 / 100, "1-8h"⟩
  | .d1 => ⟨252, 2 / 10, "1-5d"⟩

/-- One OHLCV bar (the `AlpacaBar` interface): timestamp `t`, open `o`,
high `h`, low `l`, close `c`, volume `v`. -/
structure AlpacaBar where
  t : String
  o : ℚ
  h : ℚ
  l : ℚ
  c : ℚ
  v : ℚ
deriving DecidableEq, Repr, Inhabited

/-- The fields of `SavedStrategy` read by the backtesting engine (`id`,
`models`, `assetUniverses`, `customSymbols`, `stopLossPercentage`); the
remaining fields of the interface are presentation-only and never read by
`handleRunBacktest`.  Model tags are opaque to the engine and kept as
strings. -/
structure SavedStrategy where
  id : String
  name : String
  models : List String
  assetUniverses : List AssetUniverse
  customSymbols : List String
  stopLossPercentage : ℚ
deriving DecidableEq, Repr

/-- `Trade.exitReason`: `'TP' | 'SL' | 'EOD'` (take profit, stop loss,
end of day / end of period). -/
inductive ExitReason where
  | TP | SL | EOD
deriving DecidableEq, Repr

/-- `Trade.type`: `'WIN' | 'LOSS'`. -/
inductive TradeType where
  | WIN | LOSS
deriving DecidableEq, Repr

/-- The `Trade` record emitted by the simulator. -/
structure Trade where
  id : String
  symbol : String
  pnl : ℚ
  pnlPercentage : ℚ
  positionSize : ℚ
  value : ℚ
  leverage : ℤ
  holdingTime : String
  rr : ℚ
  type : TradeType
  assetClass : AssetClass
  entryPrice : ℚ
  exitPrice : ℚ
  stopLossPrice : ℚ
  takeProfitPrice : ℚ
  commission : ℚ
  slippage : ℚ
  exitReason : ExitReason
deriving DecidableEq, Repr

/-- One point of the performance curve (`PerformanceDataPoint`). -/
structure PerformanceDataPoint where
  date : String
  strategy : ℚ
  sp500 : ℚ
  drawdown : ℚ
deriving DecidableEq, Repr, Inhabited

/-- The run configuration assembled from the page inputs. -/
structure RunConfig where
  startDate : String
  endDate : String
  initialCapital : ℚ
  commission : ℚ
  slippage : ℚ
  useWeeklyBias : Bool
  timeframe : Timeframe
deriving DecidableEq, Repr

/-- The response of `fetchStockHistoricalData` as consumed by the run:
`success` flag and the optional symbol → bars map (a JS object with
unique keys, modelled as an association list). -/
structure FetchResult where
  success : Bool
  data : Option (List (String × List AlpacaBar))
deriving DecidableEq, Repr

/-- A single `Math.random()` draw: a rational in `[0, 1)`. -/
def Rand01 : Type := {q : ℚ // 0 ≤ q ∧ q < 1}

/-- The three `Math.random()` draws the loop body of the simulator may
consume at one (strategy, bar) iteration: the entry trigger, the symbol
pick, and the risk/reward draw. -/
structure RandomDraws where
  signal : Rand01
  symbolPick : Rand01
  rrDraw : Rand01

/-- The random source of the simulator, indexed by strategy index and bar
index.  Each JS execution corresponds to one oracle (the draws are
independent and uniform, so indexing them by iteration is faithful). -/
def Oracle : Type := ℕ → ℕ → RandomDraws

/-- Lookup `data[symbol]` in the fetched bar map. -/
def lookupBars (data : List (String × List AlpacaBar)) (s : String) :
    Option (List AlpacaBar) :=
  (data.find? (fun p => p.1 == s)).map (fun p => p.2)

/-- `dailyPnl[date] = dailyPnl[date] || 0`: make sure the key exists,
initialising it to `0` (keys are inserted in iteration order, as JS
objects keep non-index string keys). -/
def pnlEnsure (m : List (String × ℚ)) (d : String) : List (String × ℚ) :=
  if (m.find? (fun p => p.1 == d)).isSome then m else m ++ [(d, 0)]

/-- `dailyPnl[date] += x` (the key is always present when this runs). -/
def pnlAdd (m : List (String × ℚ)) (d : String) (x : ℚ) : List (String × ℚ) :=
  m.map (fun p => if p.1 == d then (p.1, p.2 + x) else p)

/-- Read `dailyPnl[date]` (all read keys are present; `0` for a missing
key only as a total-function default). -/
def pnlGet (m : List (String × ℚ)) (d : String) : ℚ :=
  ((m.find? (fun p => p.1 == d)).map (fun p => p.2)).getD 0

/-- The trade construction of the entry branch (lines 169–215 of the
Backtesting page): entry at the bar's open adjusted by slippage, stop-loss
and take-profit levels from the strategy's stop-loss percentage and the
drawn risk/reward ratio, exit resolved against the same bar's low/high
(stop-loss check first, then take-profit, else close), slippage applied to
the chosen exit price, position sized at 2% of initial capital, P&L net of
commission. -/
def openTrade (cfg : RunConfig) (symbolAssetClass : String → Option AssetClass)
    (holdingTime : String) (stopLossPercentage : ℚ) (symbolToTrade : String)
    (currentBar : AlpacaBar) (potentialRR : ℚ) (i : ℕ) : Trade :=
  let entryPrice := currentBar.o * (1 + cfg.slippage / 100)
  let stopDistance := entryPrice * (stopLossPercentage / 100)
  let stopLossPrice := entryPrice - stopDistance
  let takeProfitPrice := entryPrice + stopDistance * potentialRR
  let exitPriceRaw : ℚ :=
    if currentBar.l ≤ stopLossPrice then stopLossPrice
    else if currentBar.h ≥ takeProfitPrice then takeProfitPrice
    else currentBar.c
  let exitReason : ExitReason :=
    if currentBar.l ≤ stopLossPrice then .SL
    else if currentBar.h ≥ takeProfitPrice then .TP
    else .EOD
  let exitPrice := exitPriceRaw * (1 - cfg.slippage / 100)
  let assetClass := (symbolAssetClass symbolToTrade).getD .USStocks
  let tradeValue := cfg.initialCapital * (2 / 100)
  let positionSize := tradeValue / entryPrice
  let grossPnl := (exitPrice - entryPrice) * positionSize
  let netPnl := grossPnl - cfg.commission
  { id := "trade-" ++ toString i ++ "-" ++ symbolToTrade
    symbol := symbolToTrade
    pnl := netPnl
    pnlPercentage := netPnl / tradeValue * 100
    positionSize := positionSize
    value := tradeValue
    leverage := calculateDynamicLeverage potentialRR (ASSET_LEVERAGE_MAP assetClass)
    holdingTime := holdingTime
    rr := potentialRR
    type := if netPnl > 0 then .WIN else .LOSS
    assetClass := assetClass
    entryPrice := entryPrice
    exitPrice := exitPrice
    stopLossPrice := stopLossPrice
    takeProfitPrice := takeProfitPrice
    commission := cfg.commission
    slippage := entryPrice * (cfg.slippage / 100) + exitPrice * (cfg.slippage / 100)
    exitReason := exitReason }

/-- The mutable simulation state of `handleRunBacktest`: the aggregated
daily P&L map and the list of emitted trades. -/
structure SimState where
  dailyPnl : List (String × ℚ)
  allTrades : List Trade

/-- One iteration of the inner bar loop (lines 152–217) for strategy
number `sIdx` at bar index `i` of its timeline. -/
def simBarStep (cfg : RunConfig) (params : SimParams)
    (symbolAssetClass : String → Option AssetClass)
    (data : List (String × List AlpacaBar)) (strategy : SavedStrategy)
    (availableSymbols : List String) (timelineBars : List AlpacaBar)
    (oracle : Oracle) (sIdx : ℕ) (st : SimState) (i : ℕ) : SimState :=
  let date := dateOf ((timelineBars.getD i default).t)
  let st1 : SimState := ⟨pnlEnsure st.dailyPnl date, st.allTrades⟩
  let draws := oracle sIdx i
  if draws.signal.val < params.tradeProbability then
    let idx := (⌊draws.symbolPick.val * (availableSymbols.length : ℚ)⌋).toNat
    let symbolToTrade := availableSymbols.getD idx ""
    match lookupBars data symbolToTrade with
    | none => st1
    | some symbolBars =>
      if i ≥ symbolBars.length then st1
      else
        let currentBar := symbolBars.getD i default
        let weeklySma := (((symbolBars.drop (i - 5)).take 5).map (fun b => b.c)).sum / 5
        let isUptrend := currentBar.c > weeklySma
        if cfg.useWeeklyBias ∧ ¬ isUptrend then st1
        else
          let potentialRR := 5 / 2 + draws.rrDraw.val * (5 / 2)
          let t := openTrade cfg symbolAssetClass params.holdingTime
            strategy.stopLossPercentage symbolToTrade currentBar potentialRR i
          ⟨pnlAdd st1.dailyPnl date t.pnl, st1.allTrades ++ [t]⟩
  else st1

/-- The symbols of one strategy: `[...new Set([...assetUniverses.flatMap(u
=> ASSET_UNIVERSE_TICKER_MAP[u]), ...customSymbols])]` (line 145). -/
def strategySymbolsOf (tickerMap : AssetUniverse → List String)
    (s : SavedStrategy) : List String :=
  jsSetDedup ((s.assetUniverses.map tickerMap).flatten ++ s.customSymbols)

/-- The strategy's symbols for which fetched data exists with more than 5
bars (line 146). -/
def availableSymbolsOf (tickerMap : AssetUniverse → List String)
    (data : List (String × List AlpacaBar)) (s : SavedStrategy) : List String :=
  (strategySymbolsOf tickerMap s).filter (fun sym =>
    match lookupBars data sym with
    | some bars => bars.length > 5
    | none => false)

/-- The timeline the strategy iterates: the bars of its first available
symbol (line 150). -/
def timelineOf (tickerMap : AssetUniverse → List String)
    (data : List (String × List AlpacaBar)) (s : SavedStrategy) : List AlpacaBar :=
  (lookupBars data ((availableSymbolsOf tickerMap data s).headD "")).getD []

/-- The per-strategy simulation (lines 144–218): skip the strategy when no
symbol has data, otherwise run the bar loop from index 5 over its
timeline. -/
def simStrategy (cfg : RunConfig) (params : SimParams)
    (symbolAssetClass : String → Option AssetClass)
    (tickerMap : AssetUniverse → List String)
    (data : List (String × List AlpacaBar)) (oracle : Oracle)
    (sIdx : ℕ) (strategy : SavedStrategy) (st : SimState) : SimState :=
  let availableSymbols := availableSymbolsOf tickerMap data strategy
  if availableSymbols.isEmpty then st
  else
    let timelineBars := timelineOf tickerMap data strategy
    ((List.range timelineBars.length).drop 5).foldl
      (fun acc i => simBarStep cfg params symbolAssetClass data strategy
        availableSymbols timelineBars oracle sIdx acc i) st

/-- The full portfolio simulation over all selected strategies, starting
from the empty P&L map and trade list. -/
def simulate (cfg : RunConfig) (params : SimParams)
    (symbolAssetClass : String → Option AssetClass)
    (tickerMap : AssetUniverse → List String)
    (data : List (String × List AlpacaBar)) (oracle : Oracle)
    (selectedStrategies : List SavedStrategy) : SimState :=
  selectedStrategies.enum.foldl
    (fun st p => simStrategy cfg params symbolAssetClass tickerMap data oracle
      p.1 p.2 st) ⟨[], []⟩

/-- Last-wins lookup in the date → SPY-close map (`new Map(entries)` keeps
the last entry for a duplicated key). -/
def mapGetLast (l : List (String × ℚ)) (k : String) : Option ℚ :=
  ((l.reverse).find? (fun p => p.1 == k)).map (fun p => p.2)

/-- The walk of the equity-curve loop (lines 234–253): running portfolio
value, running peak, and carried benchmark value.  The drawdown is the
unguarded `(peakValue - portfolioValue) / peakValue` of line 239; `ℚ`
division returns `0` at `peakValue = 0` where JS would produce a
non-finite number — the JS behaviour of that expression is modelled
separately by `drawdownJs`.  The benchmark update condition models the JS
truthiness test `if (currentSpyPrice && spyInitialPrice)` (defined and
nonzero). -/
def curveGo (initialCapital : ℚ) (spyMap : List (String × ℚ))
    (spyInitialPrice : Option ℚ) (dailyPnl : List (String × ℚ)) :
    ℚ → ℚ → ℚ → List String → List PerformanceDataPoint
  | _, _, _, [] => []
  | portfolioValue, peakValue, spyValue, date :: rest =>
    let pv := portfolioValue + pnlGet dailyPnl date
    let pk := if pv > peakValue then pv else peakValue
    let dd := (pk - pv) / pk
    let sv : ℚ :=
      match mapGetLast spyMap date, spyInitialPrice with
      | some p, some p0 =>
        if p ≠ 0 ∧ p0 ≠ 0 then initialCapital * (p / p0) else spyValue
      | _, _ => spyValue
    ⟨date, pv, sv, dd⟩ :: curveGo initialCapital spyMap spyInitialPrice dailyPnl pv pk sv rest

/-- The Equity Curve Builder (lines 222–253): sort the aggregated P&L
dates ascending and walk them, starting portfolio value, peak and
benchmark value at the initial capital. -/
def buildCurve (initialCapital : ℚ) (spyData : Option (List AlpacaBar))
    (dailyPnl : List (String × ℚ)) : List PerformanceDataPoint :=
  let spyInitialPrice := (spyData.bind List.head?).map (fun b => b.c)
  let spyMap := (spyData.getD []).map (fun b => (dateOf b.t, b.c))
  let sortedDates := sortStrings (dailyPnl.map Prod.fst)
  curveGo initialCapital spyMap spyInitialPrice dailyPnl
    initialCapital initialCapital initialCapital sortedDates

/-! ## JS number semantics

`JsNum` is the value domain of IEEE doubles without rounding and without
negative zero: an exact rational, `NaN`, or `±∞`.  The operations below
implement the IEEE special-value rules used by the risk-metric code:
division by zero produces an infinity (or `NaN` for `0/0`), `NaN`
propagates, and every comparison involving `NaN` is false. -/

/-- A JS number: finite (exact rational), `±Infinity`, or `NaN`. -/
inductive JsNum where
  | fin (q : ℚ)
  | posInf
  | negInf
  | nan
deriving DecidableEq, Repr

/-- `Number.isFinite`. -/
def JsNum.isFinite : JsNum → Bool
  | .fin _ => true
  | _ => false

/-- JS subtraction on `JsNum`. -/
def jsSub : JsNum → JsNum → JsNum
  | .nan, _ => .nan
  | _, .nan => .nan
  | .fin a, .fin b => .fin (a - b)
  | .fin _, .posInf => .negInf
  | .fin _, .negInf => .posInf
  | .posInf, .posInf => .nan
  | .posInf, _ => .posInf
  | .negInf, .negInf => .nan
  | .negInf, _ => .negInf

/-- JS multiplication on `JsNum` (`0 * ±∞ = NaN`). -/
def jsMul : JsNum → JsNum → JsNum
  | .nan, _ => .nan
  | _, .nan => .nan
  | .fin a, .fin b => .fin (a * b)
  | .fin a, .posInf => if 0 < a then .posInf else if a < 0 then .negInf else .nan
  | .fin a, .negInf => if 0 < a then .negInf else if a < 0 then .posInf else .nan
  | .posInf, .fin b => if 0 < b then .posInf else if b < 0 then .negInf else .nan
  | .negInf, .fin b => if 0 < b then .negInf else if b < 0 then .posInf else .nan
  | .posInf, .posInf => .posInf
  | .posInf, .negInf => .negInf
  | .negInf, .posInf => .negInf
  | .negInf, .negInf => .posInf

/-- JS division on `JsNum` (`x/0` is `±∞` for `x ≠ 0` and `NaN` for
`0/0`; the divisor zero is `+0`, as `ℚ` has no negative zero). -/
def jsDiv : JsNum → JsNum → JsNum
  | .nan, _ => .nan
  | _, .nan => .nan
  | .fin a, .fin b =>
    if b ≠ 0 then .fin (a / b)
    else if 0 < a then .posInf
    else if a < 0 then .negInf
    else .nan
  | .fin _, .posInf => .fin 0
  | .fin _, .negInf => .fin 0
  | .posInf, .fin b => if 0 ≤ b then .posInf else .negInf
  | .negInf, .fin b => if 0 ≤ b then .negInf else .posInf
  | .posInf, _ => .nan
  | .negInf, _ => .nan

/-- JS strict less-than on `JsNum` (false whenever `NaN` is involved). -/
def jsLtB : JsNum → JsNum → Bool
  | .fin a, .fin b => a < b
  | .fin _, .posInf => true
  | .negInf, .fin _ => true
  | .negInf, .posInf => true
  | _, _ => false

/-- The expression of line 239, `(peakValue - portfolioValue) /
peakValue`, under JS number semantics.  The source has no guard for
`peakValue == 0`. -/
def drawdownJs (peakValue portfolioValue : JsNum) : JsNum :=
  jsDiv (jsSub peakValue portfolioValue) peakValue

/-- `Math.max(...l)` over finite inputs (`-Infinity` on the empty list). -/
def jsMathMax : List ℚ → JsNum
  | [] => .negInf
  | x :: xs => .fin (xs.foldl max x)

/-! ## Risk Metrics Calculator (`calculateAdvancedRatios`, lines 14–37)

`Math.sqrt` and `Math.pow` are injected as `sqrtF` / `powF`; the guard
logic and IEEE special-value handling around them is embedded exactly. -/

/-- The per-period returns (lines 17–20): `slice(1)` paired with the
previous point, `(point.strategy - prev) / prev` guarded by `prev > 0`. -/
def dailyReturnsOf (performanceData : List PerformanceDataPoint) : List ℚ :=
  (performanceData.drop 1).enum.map (fun p =>
    let prevValue := (performanceData.getD p.1 default).strategy
    if prevValue > 0 then (p.2.strategy - prevValue) / prevValue else 0)

/-- Downside deviation (lines 25–26): root of the mean square of the
strictly negative returns (`length || 1` in the divisor), times
`sqrt(barsPerYear)`. -/
def downsideDeviationOf (sqrtF : JsNum → JsNum)
    (performanceData : List PerformanceDataPoint) (barsPerYear : ℚ) : JsNum :=
  let downsideReturns := (dailyReturnsOf performanceData).filter (fun r => r < 0)
  let denom : ℚ := if downsideReturns.length = 0 then 1 else (downsideReturns.length : ℚ)
  let meanSq := ((downsideReturns.map (fun r => r ^ 2)).sum) / denom
  jsMul (sqrtF (.fin meanSq)) (sqrtF (.fin barsPerYear))

/-- Annualized return (line 22):
`Math.pow(last / first, barsPerYear / numReturns) - 1`. -/
def annualizedReturnOf (powF : JsNum → JsNum → JsNum)
    (performanceData : List PerformanceDataPoint) (barsPerYear : ℚ) : JsNum :=
  let lastV := (performanceData.getLastD default).strategy
  let firstV := (performanceData.headD default).strategy
  let n : ℚ := ((dailyReturnsOf performanceData).length : ℚ)
  jsSub (powF (jsDiv (.fin lastV) (.fin firstV)) (jsDiv (.fin barsPerYear) (.fin n))) (.fin 1)

/-- The pair of ratios returned by `calculateAdvancedRatios`. -/
structure Ratios where
  sortino : JsNum
  calmar : JsNum
deriving DecidableEq, Repr

/-- The ratio computations before the final finiteness coercion (lines
22–31): Sortino guarded by `downsideDeviation > 0`, Calmar guarded by
`maxDrawdown > 0` (both guards are false on `NaN`, as in JS).  The
`d.drawdown || 0` of line 30 is the identity on the finite drawdown
field. -/
def rawRatios (sqrtF : JsNum → JsNum) (powF : JsNum → JsNum → JsNum)
    (performanceData : List PerformanceDataPoint)
    (riskFreeRate barsPerYear : ℚ) : Ratios :=
  let annualizedReturn := annualizedReturnOf powF performanceData barsPerYear
  let downsideDeviation := downsideDeviationOf sqrtF performanceData barsPerYear
  let sortino :=
    if jsLtB (.fin 0) downsideDeviation then
      jsDiv (jsSub annualizedReturn (.fin riskFreeRate)) downsideDeviation
    else .fin 0
  let maxDrawdown := jsMathMax (performanceData.map (fun p => p.drawdown))
  let calmar :=
    if jsLtB (.fin 0) maxDrawdown then jsDiv annualizedReturn maxDrawdown
    else .fin 0
  ⟨sortino, calmar⟩

/-- `isFinite(x) ? x : 0` (lines 34–35). -/
def jsCoerceFinite (x : JsNum) : JsNum := if x.isFinite then x else .fin 0

/-- Embedding of `calculateAdvancedRatios` (lines 14–37): degenerate-input
guard, raw ratio computation, and coercion of non-finite results to 0. -/
def calculateAdvancedRatios (sqrtF : JsNum → JsNum)
    (powF : JsNum → JsNum → JsNum)
    (performanceData : List PerformanceDataPoint)
    (riskFreeRate barsPerYear : ℚ) : Ratios :=
  if performanceData.length < 2 then ⟨.fin 0, .fin 0⟩
  else
    let raw := rawRatios sqrtF powF performanceData riskFreeRate barsPerYear
    ⟨jsCoerceFinite raw.sortino, jsCoerceFinite raw.calmar⟩

/-! ## The run (`handleRunBacktest`, lines 107–298) -/

/-- The error taxonomy of the run, in source order: `InputError` is the
"Please select at least one strategy" rejection (line 108–111, before any
work), `DataUnavailableError` the "Could not fetch real data for any
selected assets" rejection (lines 132–136), `EmptyResultError` the "Could
not generate performance data. No trades were executed" rejection (lines
255–259). -/
inductive EngineError where
  | InputError
  | DataUnavailableError
  | EmptyResultError
deriving DecidableEq, Repr

/-- The `BacktestSummary` block (lines 284–294).  `winRate` is kept as the
exact percentage the source formats with `toFixed(2)`. -/
structure BacktestSummary where
  trades : ℕ
  wins : ℕ
  losses : ℕ
  winRate : ℚ
  avgWin : ℚ
  avgLoss : ℚ
  avgRR : ℚ
  avgPositionSize : ℚ
  avgLeverage : ℚ
deriving DecidableEq, Repr

/-- The assembled result (lines 271–296).  The formatted metric strings of
the source are kept as their exact numeric values; the placeholder fields
`pnlDistribution` and `allocationData` (set to `[]` by the source) are
omitted. -/
structure BacktestResults where
  performanceData : List PerformanceDataPoint
  allTrades : List Trade
  totalReturn : ℚ
  totalReturnPercent : ℚ
  maxDrawdown : JsNum
  sortino : JsNum
  calmar : JsNum
  summary : BacktestSummary
  stopLossFeedback : String
  config : RunConfig
deriving DecidableEq, Repr

/-- Embedding of the body of `handleRunBacktest` (lines 107–298):
strategy-selection check, symbol resolution, data fetch (injected as
`fetch`, always called with `SPY` prepended), data-availability check,
simulation, curve construction, empty-curve check, and result assembly.
The advisory-text collaborator's reply is injected as `stopLossFeedback`.
`totalReturnPercent` uses `ℚ` division (the source's unguarded float
division differs only at `initialCapital = 0`). -/
def run (savedStrategies : List SavedStrategy) (selectedStrategyIds : List String)
    (cfg : RunConfig) (tickerMap : AssetUniverse → List String)
    (symbolAssetClass : String → Option AssetClass)
    (fetch : List String → FetchResult) (stopLossFeedback : String)
    (oracle : Oracle) (sqrtF : JsNum → JsNum) (powF : JsNum → JsNum → JsNum) :
    Except EngineError BacktestResults :=
  if selectedStrategyIds.isEmpty then .error .InputError
  else
    let params := getSimulationParams cfg.timeframe
    let selectedStrategies :=
      savedStrategies.filter (fun s => selectedStrategyIds.contains s.id)
    let allSymbols := jsSetDedup ((selectedStrategies.map (fun s =>
      (s.assetUniverses.map tickerMap).flatten ++ s.customSymbols)).flatten)
    let symbolsToFetch := jsSetDedup ("SPY" :: allSymbols)
    let dataResult := fetch symbolsToFetch
    match dataResult.data with
    | none => .error .DataUnavailableError
    | some data =>
      if dataResult.success = false ∨ data.isEmpty then .error .DataUnavailableError
      else
        let st := simulate cfg params symbolAssetClass tickerMap data oracle
          selectedStrategies
        let spyData := lookupBars data "SPY"
        let performanceData := buildCurve cfg.initialCapital spyData st.dailyPnl
        if performanceData.isEmpty then .error .EmptyResultError
        else
          let finalValue := cfg.initialCapital + (st.dailyPnl.map Prod.snd).sum
          let totalReturn := finalValue - cfg.initialCapital
          let ratios := calculateAdvancedRatios sqrtF powF performanceData
            (2 / 100) params.barsPerYear
          let winningTrades := st.allTrades.filter (fun t => t.type == TradeType.WIN)
          let losingTrades := st.allTrades.filter (fun t => t.type == TradeType.LOSS)
          .ok
            { performanceData := performanceData
              allTrades := st.allTrades
              totalReturn := totalReturn
              totalReturnPercent := totalReturn / cfg.initialCapital * 100
              maxDrawdown := jsMathMax (performanceData.map (fun p => p.drawdown))
              sortino := ratios.sortino
              calmar := ratios.calmar
              summary :=
                { trades := st.allTrades.length
                  wins := winningTrades.length
                  losses := st.allTrades.length - winningTrades.length
                  winRate :=
                    if st.allTrades.length > 0 then
                      (winningTrades.length : ℚ) / (st.allTrades.length : ℚ) * 100
                    else 0
                  avgWin :=
                    if winningTrades.length > 0 then
                      ((winningTrades.map (fun t => t.pnl)).sum) / (winningTrades.length : ℚ)
                    else 0
                  avgLoss :=
                    if losingTrades.length > 0 then
                      ((losingTrades.map (fun t => t.pnl)).sum) / (losingTrades.length : ℚ)
                    else 0
                  avgRR :=
                    if st.allTrades.length > 0 then
                      ((st.allTrades.map (fun t => t.rr)).sum) / (st.allTrades.length : ℚ)
                    else 0
                  avgPositionSize :=
                    if st.allTrades.length > 0 then
                      ((st.allTrades.map (fun t => t.value)).sum) / (st.allTrades.length : ℚ)
                    else 0
                  avgLeverage :=
                    if st.allTrades.length > 0 then
                      ((st.allTrades.map (fun t => (t.leverage : ℚ))).sum) / (st.allTrades.length : ℚ)
                    else 0 }
              stopLossFeedback := stopLossFeedback
              config := cfg }

/-! ## Claims about the Leverage Sizer -/

/-- C9: the three leverage test vectors hold exactly:
`calculateDynamicLeverage(2.5, 20) == 2`,
`calculateDynamicLeverage(5.0, 20) == 20`, and
`calculateDynamicLeverage(3.75, 10) == 6`. -/
theorem claim_c9_leverage_vectors :
    calculateDynamicLeverage (5 / 2) 20 = 2 ∧
    calculateDynamicLeverage 5 20 = 20 ∧
    calculateDynamicLeverage (15 / 4) 10 = 6 := by
  refine ⟨?_, ?_, ?_⟩ <;> norm_num [calculateDynamicLeverage, jsRound]

/-- C1 counterexample: the claim that `calculateDynamicLeverage` treats
`rr` below 2.5 as 2.5 and always returns a value in `[2, maxLeverage]` is
false: at `rr = 0`, `maxLeverage = 20` the source extrapolates below the
lower anchor (there is no lower clamp) and returns `-16`. -/
theorem claim_c1_counterexample :
    calculateDynamicLeverage 0 20 = -16 ∧
    ¬ (2 ≤ calculateDynamicLeverage 0 20) := by
  norm_num [calculateDynamicLeverage, jsRound]

/-- C1 (amended): for `rr ≥ 2.5` the function is total and its result `r`
satisfies `2 ≤ r ≤ max maxLeverage 2`, returning `2` whenever
`maxLeverage ≤ 2`; `rr` is clamped from above at 5.0 only, so inputs
below 2.5 are extrapolated below 2 rather than clamped. -/
theorem claim_c1_leverage_range (rr : ℚ) (m : ℤ) (h : 5 / 2 ≤ rr) :
    2 ≤ calculateDynamicLeverage rr m ∧
    calculateDynamicLeverage rr m ≤ max m 2 ∧
    (m ≤ 2 → calculateDynamicLeverage rr m = 2) := by
  have hcast : ((m : ℚ) - 2 ≤ 0) ↔ m ≤ 2 := by
    rw [sub_nonpos]
    exact_mod_cast Iff.rfl
  by_cases hm : m ≤ 2
  · have : calculateDynamicLeverage rr m = 2 := by
      unfold calculateDynamicLeverage
      rw [if_pos (Or.inr (hcast.mpr hm))]
    refine ⟨le_of_eq this.symm, ?_, fun _ => this⟩
    rw [this]
    exact le_max_right m 2
  · have hm3 : 3 ≤ m := by omega
    have hmq : (2 : ℚ) < (m : ℚ) := by exact_mod_cast (by omega : (2 : ℤ) < m)
    have hne : ¬ ((5 : ℚ) - 5 / 2 ≤ 0 ∨ (m : ℚ) - 2 ≤ 0) := by
      push_neg
      constructor
      · norm_num
      · linarith
    have hmin5 : min rr 5 ≤ 5 := min_le_right rr 5
    have hmin25 : 5 / 2 ≤ min rr 5 := le_min h (by norm_num)
    have ht0 : 0 ≤ (min rr 5 - 5 / 2) / (5 - 5 / 2) := by
      apply div_nonneg <;> linarith
    have ht1 : (min rr 5 - 5 / 2) / (5 - 5 / 2) ≤ 1 := by
      rw [div_le_one (by norm_num)]
      linarith
    set t := (min rr 5 - 5 / 2) / (5 - 5 / 2) with hteq
    have hL2 : 2 ≤ 2 + t * ((m : ℚ) - 2) := by
      have := mul_nonneg ht0 (by linarith : (0 : ℚ) ≤ (m : ℚ) - 2)
      linarith
    have hLm : 2 + t * ((m : ℚ) - 2) ≤ (m : ℚ) := by
      have := mul_le_mul_of_nonneg_right ht1 (by linarith : (0 : ℚ) ≤ (m : ℚ) - 2)
      rw [one_mul] at this
      linarith
    have hx2 : 2 ≤ min (2 + t * ((m : ℚ) - 2)) (m : ℚ) := le_min hL2 (by linarith)
    have hxm : min (2 + t * ((m : ℚ) - 2)) (m : ℚ) ≤ (m : ℚ) := min_le_right _ _
    set x := min (2 + t * ((m : ℚ) - 2)) (m : ℚ) with hxeq
    have hval : calculateDynamicLeverage rr m = jsRound x := by
      unfold calculateDynamicLeverage
      rw [if_neg hne]
    have hlow : 2 ≤ jsRound x := by
      rw [jsRound, Int.le_floor]
      push_cast
      linarith
    have hhigh : jsRound x ≤ m := by
      have hfl : (jsRound x : ℚ) ≤ x + 1 / 2 := Int.floor_le _
      have : (jsRound x : ℚ) < (m : ℚ) + 1 := by linarith
      have : jsRound x < m + 1 := by exact_mod_cast this
      omega
    rw [hval]
    exact ⟨hlow, le_trans hhigh (le_max_left m 2), fun h2 => absurd h2 hm⟩

/-- C1 witness: the amended theorem at `rr = 3`, `maxLeverage = 10`. -/
theorem claim_c1_leverage_range_witness :
    2 ≤ calculateDynamicLeverage 3 10 ∧
    calculateDynamicLeverage 3 10 ≤ max 10 2 ∧
    ((10 : ℤ) ≤ 2 → calculateDynamicLeverage 3 10 = 2) :=
  claim_c1_leverage_range 3 10 (by norm_num)

/-! ## Claims about the Bar-Level Trade Simulator -/

/-- C5: an opened trade whose entry bar satisfies both
`low ≤ stopLossPrice` and `high ≥ takeProfitPrice` resolves with exit
reason `SL`: the stop-loss check precedes the take-profit check. -/
theorem claim_c5_stop_precedes_target (cfg : RunConfig)
    (symbolAssetClass : String → Option AssetClass) (holdingTime : String)
    (stopLossPercentage : ℚ) (symbolToTrade : String) (currentBar : AlpacaBar)
    (potentialRR : ℚ) (i : ℕ)
    (hsl : currentBar.l ≤ (openTrade cfg symbolAssetClass holdingTime
      stopLossPercentage symbolToTrade currentBar potentialRR i).stopLossPrice)
    (htp : currentBar.h ≥ (openTrade cfg symbolAssetClass holdingTime
      stopLossPercentage symbolToTrade currentBar potentialRR i).takeProfitPrice) :
    (openTrade cfg symbolAssetClass holdingTime stopLossPercentage
      symbolToTrade currentBar potentialRR i).exitReason = ExitReason.SL := by
  simp only [openTrade] at hsl ⊢
  rw [if_pos hsl]

/-- C5 witness: a bar spanning both levels resolves to `SL`. -/
theorem claim_c5_stop_precedes_target_witness :
    (openTrade ⟨"2020-01-01", "2025-01-01", 100000, 0, 0, false, .d1⟩
      (fun _ => none) "1-5d" 1 "SPY" ⟨"2024-01-01T00:00", 100, 1000, 1, 100, 0⟩
      (5 / 2) 5).exitReason = ExitReason.SL :=
  claim_c5_stop_precedes_target _ _ _ _ _ _ _ _
    (by norm_num [openTrade]) (by norm_num [openTrade])

/-- C6: an opened trade whose entry bar satisfies `low > stopLossPrice`
and `high < takeProfitPrice` exits at the bar's close with reason `EOD`,
and the recorded exit price is `close × (1 − slippage%/100)`. -/
theorem claim_c6_eod_exit (cfg : RunConfig)
    (symbolAssetClass : String → Option AssetClass) (holdingTime : String)
    (stopLossPercentage : ℚ) (symbolToTrade : String) (currentBar : AlpacaBar)
    (potentialRR : ℚ) (i : ℕ)
    (hsl : (openTrade cfg symbolAssetClass holdingTime stopLossPercentage
      symbolToTrade currentBar potentialRR i).stopLossPrice < currentBar.l)
    (htp : currentBar.h < (openTrade cfg symbolAssetClass holdingTime
      stopLossPercentage symbolToTrade currentBar potentialRR i).takeProfitPrice) :
    (openTrade cfg symbolAssetClass holdingTime stopLossPercentage
      symbolToTrade currentBar potentialRR i).exitReason = ExitReason.EOD ∧
    (openTrade cfg symbolAssetClass holdingTime stopLossPercentage
      symbolToTrade currentBar potentialRR i).exitPrice =
      currentBar.c * (1 - cfg.slippage / 100) := by
  simp only [openTrade] at hsl htp ⊢
  rw [if_neg (not_le.mpr hsl), if_neg (not_le.mpr htp),
    if_neg (not_le.mpr hsl), if_neg (not_le.mpr htp)]
  exact ⟨rfl, rfl⟩

/-- C6 witness: a flat bar inside both levels exits at the close, with the
slippage adjustment applied to the close. -/
theorem claim_c6_eod_exit_witness :
    (openTrade ⟨"2020-01-01", "2025-01-01", 100000, 0, 1, false, .d1⟩
      (fun _ => none) "1-5d" 1 "SPY" ⟨"2024-01-01T00:00", 100, 100, 100, 100, 0⟩
      (5 / 2) 5).exitReason = ExitReason.EOD ∧
    (openTrade ⟨"2020-01-01", "2025-01-01", 100000, 0, 1, false, .d1⟩
      (fun _ => none) "1-5d" 1 "SPY" ⟨"2024-01-01T00:00", 100, 100, 100, 100, 0⟩
      (5 / 2) 5).exitPrice = 100 * (1 - 1 / 100) :=
  claim_c6_eod_exit _ _ _ _ _ _ _ _
    (by norm_num [openTrade]) (by norm_num [openTrade])

/-! ## Claims about the Equity Curve Builder -/

/-- Every point of a `curveGo` walk whose starting peak dominates the
initial capital has `drawdown = (peak − value) / peak` for a peak that
dominates both the capital and the point's value. -/
theorem curveGo_point_spec (cap : ℚ) (spyMap : List (String × ℚ))
    (spyInit : Option ℚ) (pnl : List (String × ℚ)) :
    ∀ (dates : List String) (v pk sv : ℚ), cap ≤ pk →
      ∀ p ∈ curveGo cap spyMap spyInit pnl v pk sv dates,
        ∃ peak : ℚ, cap ≤ peak ∧ p.strategy ≤ peak ∧
          p.drawdown = (peak - p.strategy) / peak := by
  intro dates
  induction dates with
  | nil =>
    intro v pk sv _ p hp
    simp [curveGo] at hp
  | cons d rest ih =>
    intro v pk sv hpk p hp
    simp only [curveGo, List.mem_cons] at hp
    rcases hp with rfl | hp
    · by_cases hgt : v + pnlGet pnl d > pk
      · exact ⟨v + pnlGet pnl d, by linarith, le_refl _, by simp only [if_pos hgt]⟩
      · exact ⟨pk, hpk, not_lt.mp hgt, by simp only [if_neg hgt]⟩
    · refine ih _ _ _ ?_ p hp
      by_cases hgt : v + pnlGet pnl d > pk
      · rw [if_pos hgt]
        linarith
      · rw [if_neg hgt]
        exact hpk

/-- `buildCurve` version of `curveGo_point_spec`: the walk starts with
value, peak and benchmark all at the initial capital. -/
theorem buildCurve_point_spec (cap : ℚ) (spyData : Option (List AlpacaBar))
    (pnl : List (String × ℚ)) :
    ∀ p ∈ buildCurve cap spyData pnl,
      ∃ peak : ℚ, cap ≤ peak ∧ p.strategy ≤ peak ∧
        p.drawdown = (peak - p.strategy) / peak := by
  intro p hp
  simp only [buildCurve] at hp
  exact curveGo_point_spec cap _ _ pnl _ cap cap cap le_rfl p hp

/-- C3 (amended): with positive initial capital, every point's drawdown is
nonnegative, and is at most 1 whenever the point's portfolio value is
nonnegative; the first point's drawdown is 0 whenever the first date's
aggregated P&L is nonnegative (in particular when no trade fired on it).
The unamended bound `drawdown ≤ 1` and the unconditional `drawdown = 0`
at the first point fail when the portfolio value goes negative (see the
counterexample). -/
theorem claim_c3_drawdown_range (cap : ℚ) (spyData : Option (List AlpacaBar))
    (pnl : List (String × ℚ)) (hcap : 0 < cap) :
    (∀ p ∈ buildCurve cap spyData pnl,
      0 ≤ p.drawdown ∧ (0 ≤ p.strategy → p.drawdown ≤ 1)) ∧
    (∀ p rest, buildCurve cap spyData pnl = p :: rest →
      0 ≤ pnlGet pnl p.date → p.drawdown = 0) := by
  constructor
  · intro p hp
    obtain ⟨peak, hcp, hvp, hdd⟩ := buildCurve_point_spec cap spyData pnl p hp
    have hpk0 : 0 < peak := lt_of_lt_of_le hcap hcp
    constructor
    · rw [hdd]
      exact div_nonneg (by linarith) (le_of_lt hpk0)
    · intro hv
      rw [hdd, div_le_one hpk0]
      linarith
  · intro p rest heq hge
    simp only [buildCurve] at heq
    rcases hds : sortStrings (pnl.map Prod.fst) with _ | ⟨d, ds⟩
    · rw [hds] at heq
      simp [curveGo] at heq
    · rw [hds] at heq
      simp only [curveGo, List.cons.injEq] at heq
      obtain ⟨hphead, -⟩ := heq
      subst hphead
      simp only at hge ⊢
      rcases lt_or_le cap (cap + pnlGet pnl d) with hgt | hle
      · rw [if_pos hgt, sub_self, zero_div]
      · have hvc : cap + pnlGet pnl d = cap := le_antisymm hle (by linarith)
        rw [if_neg (not_lt.mpr hle), hvc, sub_self, zero_div]

/-- C3 witness: the amended theorem at a concrete curve. -/
theorem claim_c3_drawdown_range_witness :
    (∀ p ∈ buildCurve 100000 none [("2024-01-01", 5)],
      0 ≤ p.drawdown ∧ (0 ≤ p.strategy → p.drawdown ≤ 1)) ∧
    (∀ p rest, buildCurve 100000 none [("2024-01-01", 5)] = p :: rest →
      0 ≤ pnlGet [("2024-01-01", 5)] p.date → p.drawdown = 0) :=
  claim_c3_drawdown_range 100000 none [("2024-01-01", 5)] (by norm_num)

/-- C4 counterexample: the claimed guard does not exist.  Line 239
divides without any `peak == 0` test, and under JS number semantics the
expression at `peakValue = portfolioValue = 0` evaluates to `NaN`, not
`0`.  The state `peak = value = 0` is reached by the curve builder when
the initial capital is `0` (a value the input form does not reject) and a
date carries zero aggregated P&L, as the accompanying evaluation shows. -/
theorem claim_c4_counterexample :
    drawdownJs (.fin 0) (.fin 0) = JsNum.nan ∧
    JsNum.nan ≠ JsNum.fin 0 ∧
    buildCurve 0 none [("2024-01-01", 0)] =
      [⟨"2024-01-01", 0, 0, 0⟩] := by
  refine ⟨by norm_num [drawdownJs, jsSub, jsDiv], by decide, ?_⟩
  norm_num [buildCurve, curveGo, sortStrings, insertSorted, pnlGet, mapGetLast]

/-- C4 (amended): the drawdown of every curve point equals
`(peak − value) / peak` for the running peak, with no guard in the
source; whenever the initial capital is positive the peak dominates it,
so the unguarded JS division is finite and agrees with the recorded
rational value — division by zero is only reachable when the initial
capital is not positive. -/
theorem claim_c4_drawdown_division (cap : ℚ) (spyData : Option (List AlpacaBar))
    (pnl : List (String × ℚ)) (hcap : 0 < cap) :
    ∀ p ∈ buildCurve cap spyData pnl,
      ∃ peak : ℚ, cap ≤ peak ∧
        p.drawdown = (peak - p.strategy) / peak ∧
        drawdownJs (.fin peak) (.fin p.strategy) = .fin p.drawdown := by
  intro p hp
  obtain ⟨peak, hcp, -, hdd⟩ := buildCurve_point_spec cap spyData pnl p hp
  have hpk0 : peak ≠ 0 := ne_of_gt (lt_of_lt_of_le hcap hcp)
  refine ⟨peak, hcp, hdd, ?_⟩
  simp only [drawdownJs, jsSub, jsDiv, if_pos hpk0, hdd]

/-- C4 witness: the amended theorem at the one point of a concrete
curve. -/
theorem claim_c4_drawdown_division_witness :
    ∃ peak : ℚ, 100000 ≤ peak ∧
      (⟨"2024-01-01", 100005, 100000, 0⟩ : PerformanceDataPoint).drawdown =
        (peak - (⟨"2024-01-01", 100005, 100000, 0⟩ :
          PerformanceDataPoint).strategy) / peak ∧
      drawdownJs (.fin peak)
        (.fin (⟨"2024-01-01", 100005, 100000, 0⟩ :
          PerformanceDataPoint).strategy) =
        .fin (⟨"2024-01-01", 100005, 100000, 0⟩ :
          PerformanceDataPoint).drawdown :=
  claim_c4_drawdown_division 100000 none [("2024-01-01", 5)] (by norm_num)
    ⟨"2024-01-01", 100005, 100000, 0⟩
    (by norm_num [buildCurve, curveGo, sortStrings, insertSorted, pnlGet,
      mapGetLast])

/-! ## Concrete run fixtures

Small inputs used to evaluate `run` end-to-end in counterexamples and
witnesses. -/

/-- An oracle whose draws are all `0`: the entry trigger fires at every
bar (`0 < tradeProbability`), the first available symbol is picked, and
the drawn risk/reward ratio is `2.5`. -/
def zeroDrawOracle : Oracle := fun _ _ =>
  ⟨⟨0, by norm_num⟩, ⟨0, by norm_num⟩, ⟨0, by norm_num⟩⟩

/-- An oracle whose entry draw is `0.9`: the trigger never fires at any
daily trade probability, so the simulation emits no trade. -/
def idleOracle : Oracle := fun _ _ =>
  ⟨⟨9 / 10, by norm_num⟩, ⟨0, by norm_num⟩, ⟨0, by norm_num⟩⟩

/-- Six flat daily bars (`open = high = low = close = 100`) on consecutive
dates: exactly one timeline index (5) is simulated. -/
def flatBars : List AlpacaBar :=
  [⟨"2024-01-01T05:00", 100, 100, 100, 100, 0⟩,
   ⟨"2024-01-02T05:00", 100, 100, 100, 100, 0⟩,
   ⟨"2024-01-03T05:00", 100, 100, 100, 100, 0⟩,
   ⟨"2024-01-04T05:00", 100, 100, 100, 100, 0⟩,
   ⟨"2024-01-05T05:00", 100, 100, 100, 100, 0⟩,
   ⟨"2024-01-06T05:00", 100, 100, 100, 100, 0⟩]

/-- A strategy trading only the custom symbol `SPY` with a 1% stop
loss. -/
def spyStrategy : SavedStrategy := ⟨"s1", "S", [], [], ["SPY"], 1⟩

/-- A strategy with no asset universes and no custom symbols: nothing is
resolvable for it. -/
def emptyStrategy : SavedStrategy := ⟨"s0", "S0", [], [], [], 1⟩

/-- A run configuration with an oversized commission (300000 against
100000 capital): a single flat trade loses three times the capital. -/
def bigCommissionConfig : RunConfig :=
  ⟨"2020-01-01", "2025-01-01", 100000, 300000, 0, false, .d1⟩

/-- A plain configuration: 100000 capital, no commission, no slippage. -/
def plainConfig : RunConfig :=
  ⟨"2020-01-01", "2025-01-01", 100000, 0, 0, false, .d1⟩

/-- C3 counterexample: a complete run (one strategy on `SPY`, six flat
bars, one trade with commission exceeding capital) whose performance
sequence is the single point with drawdown `3`: the claimed bound
`drawdown ≤ 1` and the claimed `drawdown = 0` at the first point both
fail on it. -/
theorem claim_c3_counterexample :
    ((run [spyStrategy] ["s1"] bigCommissionConfig (fun _ => [])
      (fun _ => none) (fun _ => ⟨true, some [("SPY", flatBars)]⟩) ""
      zeroDrawOracle (fun x => x) (fun x _ => x)).toOption.map
        (fun r => r.performanceData.map (fun p => p.drawdown)) = some [3]) ∧
    ¬ ((3 : ℚ) ≤ 1) ∧ (3 : ℚ) ≠ 0 := by
  have h1 : availableSymbolsOf (fun _ => ([] : List String))
      [("SPY", flatBars)] spyStrategy = ["SPY"] := by decide
  have h2 : timelineOf (fun _ => ([] : List String))
      [("SPY", flatBars)] spyStrategy = flatBars := by decide
  have h3 : flatBars.length = 6 := by decide
  have h4 : (List.range 6).drop 5 = [5] := by decide
  have h5 : dateOf "2024-01-06T05:00" = "2024-01-06" := by decide
  have h6 : ([spyStrategy] : List SavedStrategy).enum = [(0, spyStrategy)] := by decide
  have h7 : (flatBars.map (fun b => (dateOf b.t, b.c))) =
      [("2024-01-01", 100), ("2024-01-02", 100), ("2024-01-03", 100),
       ("2024-01-04", 100), ("2024-01-05", 100), ("2024-01-06", 100)] := by decide
  have h8 : mapGetLast [("2024-01-01", (100 : ℚ)), ("2024-01-02", 100),
      ("2024-01-03", 100), ("2024-01-04", 100), ("2024-01-05", 100),
      ("2024-01-06", 100)] "2024-01-06" = some 100 := by decide
  have h9 : lookupBars [("SPY", flatBars)] "SPY" = some flatBars := by decide
  have h10 : flatBars[5]? = some ⟨"2024-01-06T05:00", 100, 100, 100, 100, 0⟩ := by decide
  have h11 : flatBars.take 5 =
      [⟨"2024-01-01T05:00", 100, 100, 100, 100, 0⟩,
       ⟨"2024-01-02T05:00", 100, 100, 100, 100, 0⟩,
       ⟨"2024-01-03T05:00", 100, 100, 100, 100, 0⟩,
       ⟨"2024-01-04T05:00", 100, 100, 100, 100, 0⟩,
       ⟨"2024-01-05T05:00", 100, 100, 100, 100, 0⟩] := by decide
  have h12 : flatBars.head? = some ⟨"2024-01-01T05:00", 100, 100, 100, 100, 0⟩ := by decide
  have hsid : spyStrategy.id = "s1" := rfl
  have hsau : spyStrategy.assetUniverses = [] := rfl
  have hscs : spyStrategy.customSymbols = ["SPY"] := rfl
  have hssl : spyStrategy.stopLossPercentage = 1 := rfl
  have hc1 : bigCommissionConfig.initialCapital = 100000 := rfl
  have hc2 : bigCommissionConfig.commission = 300000 := rfl
  have hc3 : bigCommissionConfig.slippage = 0 := rfl
  have hc4 : bigCommissionConfig.useWeeklyBias = false := rfl
  have hc5 : bigCommissionConfig.timeframe = Timeframe.d1 := rfl
  refine ⟨?_, by norm_num, by norm_num⟩
  norm_num [run, simulate, simStrategy, simBarStep, openTrade, buildCurve, curveGo,
    jsSetDedup, jsSetDedupAux, sortStrings, insertSorted,
    pnlEnsure, pnlAdd, pnlGet, getSimulationParams, zeroDrawOracle,
    h1, h2, h3, h4, h5, h6, h7, h8, h9, h10, h11, h12,
    hsid, hsau, hscs, hssl, hc1, hc2, hc3, hc4, hc5]
  exact ⟨_, rfl, by norm_num⟩

/-- C2 counterexample: a run in which the simulation produces zero trades
(the entry trigger never fires) but data exists for a strategy symbol: it
returns a `BacktestResults` with an empty trade list and a one-point
performance curve, not `EmptyResultError` — the error is tied to an empty
curve, not to zero trades. -/
theorem claim_c2_counterexample :
    ((run [spyStrategy] ["s1"] plainConfig (fun _ => [])
      (fun _ => none) (fun _ => ⟨true, some [("SPY", flatBars)]⟩) ""
      idleOracle (fun x => x) (fun x _ => x)).toOption.map
        (fun r => (r.allTrades, r.performanceData.map (fun p => p.date)))) =
      some ([], ["2024-01-06"]) := by
  have h1 : availableSymbolsOf (fun _ => ([] : List String))
      [("SPY", flatBars)] spyStrategy = ["SPY"] := by decide
  have h2 : timelineOf (fun _ => ([] : List String))
      [("SPY", flatBars)] spyStrategy = flatBars := by decide
  have h3 : flatBars.length = 6 := by decide
  have h4 : (List.range 6).drop 5 = [5] := by decide
  have h5 : dateOf "2024-01-06T05:00" = "2024-01-06" := by decide
  have h6 : ([spyStrategy] : List SavedStrategy).enum = [(0, spyStrategy)] := by decide
  have h7 : (flatBars.map (fun b => (dateOf b.t, b.c))) =
      [("2024-01-01", 100), ("2024-01-02", 100), ("2024-01-03", 100),
       ("2024-01-04", 100), ("2024-01-05", 100), ("2024-01-06", 100)] := by decide
  have h8 : mapGetLast [("2024-01-01", (100 : ℚ)), ("2024-01-02", 100),
      ("2024-01-03", 100), ("2024-01-04", 100), ("2024-01-05", 100),
      ("2024-01-06", 100)] "2024-01-06" = some 100 := by decide
  have h9 : lookupBars [("SPY", flatBars)] "SPY" = some flatBars := by decide
  have h10 : flatBars[5]? = some ⟨"2024-01-06T05:00", 100, 100, 100, 100, 0⟩ := by decide
  have h12 : flatBars.head? = some ⟨"2024-01-01T05:00", 100, 100, 100, 100, 0⟩ := by decide
  have hsid : spyStrategy.id = "s1" := rfl
  have hsau : spyStrategy.assetUniverses = [] := rfl
  have hscs : spyStrategy.customSymbols = ["SPY"] := rfl
  have hc1 : plainConfig.initialCapital = 100000 := rfl
  have hc4 : plainConfig.useWeeklyBias = false := rfl
  have hc5 : plainConfig.timeframe = Timeframe.d1 := rfl
  norm_num [run, simulate, simStrategy, simBarStep, buildCurve, curveGo,
    jsSetDedup, jsSetDedupAux, sortStrings, insertSorted,
    pnlEnsure, pnlAdd, pnlGet, getSimulationParams, idleOracle,
    h1, h2, h3, h4, h5, h6, h7, h8, h9, h10, h12,
    hsid, hsau, hscs, hc1, hc4, hc5]
  exact ⟨_, rfl, by norm_num⟩

/-- C8 counterexample: with one selected strategy that resolves to zero
symbols, the run still fetches (`SPY` is always requested), performs the
simulation phase, and then fails with `EmptyResultError` — not with
`InputError`, and not before simulation work begins. -/
theorem claim_c8_counterexample :
    run [emptyStrategy] ["s0"] plainConfig (fun _ => [])
      (fun _ => none) (fun _ => ⟨true, some [("SPY", flatBars)]⟩) ""
      idleOracle (fun x => x) (fun x _ => x) =
        Except.error EngineError.EmptyResultError ∧
    EngineError.EmptyResultError ≠ EngineError.InputError := by
  have hA : availableSymbolsOf (fun _ => ([] : List String))
      [("SPY", flatBars)] emptyStrategy = [] := by decide
  have h6 : ([emptyStrategy] : List SavedStrategy).enum = [(0, emptyStrategy)] := by decide
  have hsid : emptyStrategy.id = "s0" := rfl
  have hsau : emptyStrategy.assetUniverses = [] := rfl
  have hscs : emptyStrategy.customSymbols = ([] : List String) := rfl
  refine ⟨?_, by decide⟩
  norm_num [run, simulate, simStrategy, buildCurve, curveGo,
    jsSetDedup, jsSetDedupAux, sortStrings, getSimulationParams,
    hA, h6, hsid, hsau, hscs]

/-- A strategy with no available symbols is skipped without touching the
state (line 148). -/
theorem simStrategy_skip (cfg : RunConfig) (params : SimParams)
    (symbolAssetClass : String → Option AssetClass)
    (tickerMap : AssetUniverse → List String)
    (data : List (String × List AlpacaBar)) (oracle : Oracle)
    (sIdx : ℕ) (s : SavedStrategy) (st : SimState)
    (h : availableSymbolsOf tickerMap data s = []) :
    simStrategy cfg params symbolAssetClass tickerMap data oracle sIdx s st = st := by
  simp [simStrategy, h]

/-- If every selected strategy has no available symbol, the whole
simulation leaves the initial state unchanged. -/
theorem simulate_noop (cfg : RunConfig) (params : SimParams)
    (symbolAssetClass : String → Option AssetClass)
    (tickerMap : AssetUniverse → List String)
    (data : List (String × List AlpacaBar)) (oracle : Oracle) :
    ∀ (l : List SavedStrategy) (n : ℕ) (st : SimState),
      (∀ s ∈ l, availableSymbolsOf tickerMap data s = []) →
      (l.enumFrom n).foldl
        (fun acc p => simStrategy cfg params symbolAssetClass tickerMap data
          oracle p.1 p.2 acc) st = st := by
  intro l
  induction l with
  | nil => intro n st _; rfl
  | cons s rest ih =>
    intro n st h
    simp only [List.enumFrom, List.foldl_cons]
    rw [simStrategy_skip cfg params symbolAssetClass tickerMap data oracle n s st
      (h s (List.mem_cons_self s rest))]
    exact ih (n + 1) st (fun x hx => h x (List.mem_cons_of_mem s hx))

/-- The curve of an empty P&L map is empty. -/
theorem buildCurve_nil (cap : ℚ) (spyData : Option (List AlpacaBar)) :
    buildCurve cap spyData [] = [] := by
  simp [buildCurve, sortStrings, curveGo]

/-- If a strategy resolves to no symbols at all, it has no available
symbols for any data. -/
theorem availableSymbolsOf_of_no_symbols (tickerMap : AssetUniverse → List String)
    (data : List (String × List AlpacaBar)) (s : SavedStrategy)
    (h : strategySymbolsOf tickerMap s = []) :
    availableSymbolsOf tickerMap data s = [] := by
  simp [availableSymbolsOf, h]

/-- C8 (amended): when no symbol is resolvable for any selected strategy
(but the selection itself is nonempty), the run still performs the data
fetch — `SPY` is always requested — and then fails with
`DataUnavailableError` when the fetch yields no usable map, or with
`EmptyResultError` after an empty simulation otherwise; it never returns
a `BacktestResults` and it does not report `InputError` (that error is
reserved for an empty strategy selection). -/
theorem claim_c8_no_symbols (savedStrategies : List SavedStrategy)
    (selectedStrategyIds : List String) (cfg : RunConfig)
    (tickerMap : AssetUniverse → List String)
    (symbolAssetClass : String → Option AssetClass)
    (fetch : List String → FetchResult) (fb : String) (oracle : Oracle)
    (sqrtF : JsNum → JsNum) (powF : JsNum → JsNum → JsNum)
    (hids : selectedStrategyIds ≠ [])
    (hsyms : ∀ s ∈ savedStrategies.filter
      (fun s => selectedStrategyIds.contains s.id),
      strategySymbolsOf tickerMap s = []) :
    run savedStrategies selectedStrategyIds cfg tickerMap symbolAssetClass
      fetch fb oracle sqrtF powF = Except.error EngineError.DataUnavailableError ∨
    run savedStrategies selectedStrategyIds cfg tickerMap symbolAssetClass
      fetch fb oracle sqrtF powF = Except.error EngineError.EmptyResultError := by
  have hempty : selectedStrategyIds.isEmpty = false := by
    cases selectedStrategyIds with
    | nil => exact absurd rfl hids
    | cons a l => rfl
  unfold run
  rw [hempty]
  simp only [Bool.false_eq_true, if_false]
  split
  · exact Or.inl rfl
  · next data hdata =>
    split
    · exact Or.inl rfl
    · have hsim : simulate cfg (getSimulationParams cfg.timeframe) symbolAssetClass
          tickerMap data oracle
          (savedStrategies.filter (fun s => selectedStrategyIds.contains s.id)) =
          ⟨[], []⟩ := by
        unfold simulate
        exact simulate_noop cfg _ symbolAssetClass tickerMap data oracle _ 0 ⟨[], []⟩
          (fun s hs => availableSymbolsOf_of_no_symbols tickerMap data s (hsyms s hs))
      simp only [hsim, buildCurve_nil, List.isEmpty_nil, if_true]
      exact Or.inr trivial

/-- C8 witness: the amended theorem at the concrete no-symbol run. -/
theorem claim_c8_no_symbols_witness :
    run [emptyStrategy] ["s0"] plainConfig (fun _ => [])
      (fun _ => none) (fun _ => ⟨true, some [("SPY", flatBars)]⟩) ""
      idleOracle (fun x => x) (fun x _ => x) =
        Except.error EngineError.DataUnavailableError ∨
    run [emptyStrategy] ["s0"] plainConfig (fun _ => [])
      (fun _ => none) (fun _ => ⟨true, some [("SPY", flatBars)]⟩) ""
      idleOracle (fun x => x) (fun x _ => x) =
        Except.error EngineError.EmptyResultError :=
  claim_c8_no_symbols _ _ _ _ _ _ _ _ _ _ (by decide) (by decide)

/-- C2 (amended): with a nonempty selection and a successful nonempty
fetch, the run reports `EmptyResultError` exactly when the built
performance curve is empty — which happens when no selected strategy had
an available symbol with more than 5 bars, not when zero trades fire
(with available data the curve gets one point per timeline date even with
no trades, and a `BacktestResults` with an empty trade list is returned).
`EmptyResultError` remains a value distinct from
`DataUnavailableError`. -/
theorem claim_c2_empty_curve_iff (savedStrategies : List SavedStrategy)
    (selectedStrategyIds : List String) (cfg : RunConfig)
    (tickerMap : AssetUniverse → List String)
    (symbolAssetClass : String → Option AssetClass)
    (fetch : List String → FetchResult) (fb : String) (oracle : Oracle)
    (sqrtF : JsNum → JsNum) (powF : JsNum → JsNum → JsNum)
    (data : List (String × List AlpacaBar))
    (hids : selectedStrategyIds ≠ [])
    (hfetch : ∀ syms, fetch syms = ⟨true, some data⟩)
    (hne : data ≠ []) :
    (run savedStrategies selectedStrategyIds cfg tickerMap symbolAssetClass
       fetch fb oracle sqrtF powF = Except.error EngineError.EmptyResultError ↔
     buildCurve cfg.initialCapital (lookupBars data "SPY")
       (simulate cfg (getSimulationParams cfg.timeframe) symbolAssetClass tickerMap
         data oracle
         (savedStrategies.filter (fun s => selectedStrategyIds.contains s.id))).dailyPnl
       = []) ∧
    EngineError.EmptyResultError ≠ EngineError.DataUnavailableError := by
  have hempty : selectedStrategyIds.isEmpty = false := by
    cases selectedStrategyIds with
    | nil => exact absurd rfl hids
    | cons a l => rfl
  have hdne : data.isEmpty = false := by
    cases data with
    | nil => exact absurd rfl hne
    | cons a l => rfl
  refine ⟨?_, by decide⟩
  unfold run
  rw [hempty]
  simp only [Bool.false_eq_true, if_false, hfetch, hdne]
  by_cases hc : buildCurve cfg.initialCapital (lookupBars data "SPY")
      (simulate cfg (getSimulationParams cfg.timeframe) symbolAssetClass tickerMap
        data oracle
        (savedStrategies.filter (fun s => selectedStrategyIds.contains s.id))).dailyPnl
      = []
  · simp [hc]
  · have hce : (buildCurve cfg.initialCapital (lookupBars data "SPY")
        (simulate cfg (getSimulationParams cfg.timeframe) symbolAssetClass tickerMap
          data oracle
          (savedStrategies.filter (fun s => selectedStrategyIds.contains s.id))).dailyPnl).isEmpty
        = false := by
      rcases hb : buildCurve cfg.initialCapital (lookupBars data "SPY")
          (simulate cfg (getSimulationParams cfg.timeframe) symbolAssetClass tickerMap
            data oracle
            (savedStrategies.filter (fun s => selectedStrategyIds.contains s.id))).dailyPnl
          with _ | ⟨p, rest⟩
      · exact absurd hb hc
      · rfl
    simp [hce, hc]

/-- C2 witness: the amended theorem at the concrete zero-trade run (the
curve is nonempty there, and accordingly the run does not report
`EmptyResultError`). -/
theorem claim_c2_empty_curve_iff_witness :
    (run [spyStrategy] ["s1"] plainConfig (fun _ => [])
       (fun _ => none) (fun _ => ⟨true, some [("SPY", flatBars)]⟩) ""
       idleOracle (fun x => x) (fun x _ => x) =
         Except.error EngineError.EmptyResultError ↔
     buildCurve plainConfig.initialCapital (lookupBars [("SPY", flatBars)] "SPY")
       (simulate plainConfig (getSimulationParams plainConfig.timeframe)
         (fun _ => none) (fun _ => []) [("SPY", flatBars)] idleOracle
         ([spyStrategy].filter (fun s => (["s1"] : List String).contains s.id))).dailyPnl
       = []) ∧
    EngineError.EmptyResultError ≠ EngineError.DataUnavailableError :=
  claim_c2_empty_curve_iff [spyStrategy] ["s1"] plainConfig (fun _ => [])
    (fun _ => none) (fun _ => ⟨true, some [("SPY", flatBars)]⟩) ""
    idleOracle (fun x => x) (fun x _ => x) [("SPY", flatBars)]
    (by decide) (fun _ => rfl) (by decide)

/-! ## Invariants of the Daily P&L Aggregator -/

/-- A property preserved by each fold step holds after the fold. -/
theorem foldl_preserve {α σ : Type} (step : σ → α → σ) (P : σ → Prop)
    (hpres : ∀ st a, P st → P (step st a)) :
    ∀ (l : List α) (st : σ), P st → P (l.foldl step st) := by
  intro l
  induction l with
  | nil => intro st h; exact h
  | cons a rest ih => intro st h; exact ih (step st a) (hpres st a h)

/-- A property established by the step of some list member and preserved
by every step holds after the fold, whatever the initial state. -/
theorem foldl_establish {α σ : Type} (step : σ → α → σ) (P : σ → Prop)
    (hpres : ∀ st a, P st → P (step st a)) :
    ∀ (l : List α) (a : α), a ∈ l → (∀ st, P (step st a)) →
      ∀ st, P (l.foldl step st) := by
  intro l
  induction l with
  | nil => intro a ha; cases ha
  | cons b rest ih =>
    intro a ha hstep st
    rcases List.mem_cons.mp ha with rfl | ha2
    · exact foldl_preserve step P hpres rest (step st a) (hstep st)
    · exact ih a ha2 hstep (step st b)

/-- `pnlAdd` never changes the key set. -/
theorem pnlAdd_keys (m : List (String × ℚ)) (d : String) (x : ℚ) :
    (pnlAdd m d x).map Prod.fst = m.map Prod.fst := by
  induction m with
  | nil => rfl
  | cons p rest ih =>
    simp only [pnlAdd, List.map_cons] at ih ⊢
    by_cases hp : p.1 == d
    · rw [if_pos hp]
      simpa using ih
    · rw [if_neg hp]
      simpa using ih

/-- Keys survive `pnlEnsure`. -/
theorem pnlEnsure_keys_mono (m : List (String × ℚ)) (d k : String)
    (hk : k ∈ m.map Prod.fst) : k ∈ (pnlEnsure m d).map Prod.fst := by
  unfold pnlEnsure
  split
  · exact hk
  · simpa using Or.inl hk

/-- `pnlEnsure` makes its key present. -/
theorem pnlEnsure_self_mem (m : List (String × ℚ)) (d : String) :
    d ∈ (pnlEnsure m d).map Prod.fst := by
  unfold pnlEnsure
  split
  · next hfind =>
    obtain ⟨p, hp⟩ := Option.isSome_iff_exists.mp hfind
    have hmem := List.mem_of_find?_eq_some hp
    have hbeq := List.find?_some hp
    have : p.1 = d := by simpa using hbeq
    subst this
    exact List.mem_map_of_mem Prod.fst hmem
  · simp

/-- The two possible outcomes of one bar iteration: only the key is
ensured (no trade), or additionally one trade is appended and its P&L
added at that key. -/
theorem simBarStep_shape (cfg : RunConfig) (params : SimParams)
    (symbolAssetClass : String → Option AssetClass)
    (data : List (String × List AlpacaBar)) (strategy : SavedStrategy)
    (availableSymbols : List String) (timelineBars : List AlpacaBar)
    (oracle : Oracle) (sIdx : ℕ) (st : SimState) (i : ℕ) :
    simBarStep cfg params symbolAssetClass data strategy availableSymbols
      timelineBars oracle sIdx st i =
      ⟨pnlEnsure st.dailyPnl (dateOf ((timelineBars.getD i default).t)),
        st.allTrades⟩ ∨
    ∃ t : Trade,
      simBarStep cfg params symbolAssetClass data strategy availableSymbols
        timelineBars oracle sIdx st i =
        ⟨pnlAdd (pnlEnsure st.dailyPnl (dateOf ((timelineBars.getD i default).t)))
            (dateOf ((timelineBars.getD i default).t)) t.pnl,
          st.allTrades ++ [t]⟩ := by
  simp only [simBarStep]
  split
  · split
    · exact Or.inl rfl
    · split
      · exact Or.inl rfl
      · split
        · exact Or.inl rfl
        · exact Or.inr ⟨_, rfl⟩
  · exact Or.inl rfl

/-- One bar iteration preserves every existing P&L key. -/
theorem simBarStep_keys_mono (cfg : RunConfig) (params : SimParams)
    (symbolAssetClass : String → Option AssetClass)
    (data : List (String × List AlpacaBar)) (strategy : SavedStrategy)
    (availableSymbols : List String) (timelineBars : List AlpacaBar)
    (oracle : Oracle) (sIdx : ℕ) (st : SimState) (i : ℕ) (k : String)
    (hk : k ∈ st.dailyPnl.map Prod.fst) :
    k ∈ (simBarStep cfg params symbolAssetClass data strategy availableSymbols
      timelineBars oracle sIdx st i).dailyPnl.map Prod.fst := by
  rcases simBarStep_shape cfg params symbolAssetClass data strategy
    availableSymbols timelineBars oracle sIdx st i with heq | ⟨t, heq⟩
  · rw [heq]
    exact pnlEnsure_keys_mono st.dailyPnl _ k hk
  · rw [heq]
    simp only [pnlAdd_keys]
    exact pnlEnsure_keys_mono st.dailyPnl _ k hk

/-- One bar iteration puts its own timeline date into the P&L key set. -/
theorem simBarStep_date_mem (cfg : RunConfig) (params : SimParams)
    (symbolAssetClass : String → Option AssetClass)
    (data : List (String × List AlpacaBar)) (strategy : SavedStrategy)
    (availableSymbols : List String) (timelineBars : List AlpacaBar)
    (oracle : Oracle) (sIdx : ℕ) (st : SimState) (i : ℕ) :
    dateOf ((timelineBars.getD i default).t) ∈
      (simBarStep cfg params symbolAssetClass data strategy availableSymbols
        timelineBars oracle sIdx st i).dailyPnl.map Prod.fst := by
  rcases simBarStep_shape cfg params symbolAssetClass data strategy
    availableSymbols timelineBars oracle sIdx st i with heq | ⟨t, heq⟩
  · rw [heq]
    exact pnlEnsure_self_mem st.dailyPnl _
  · rw [heq]
    simp only [pnlAdd_keys]
    exact pnlEnsure_self_mem st.dailyPnl _

/-- Indices at least `k` and below `n` survive `(range n).drop k`. -/
theorem mem_range_drop {n k i : ℕ} (hk : k ≤ i) (hn : i < n) :
    i ∈ (List.range n).drop k := by
  rw [List.mem_iff_getElem?]
  refine ⟨i - k, ?_⟩
  rw [List.getElem?_drop, Nat.add_sub_cancel' hk, List.getElem?_range hn]

/-- A strategy with an available symbol has a timeline longer than 5
bars (the availability filter of line 146 requires it). -/
theorem timelineOf_long (tickerMap : AssetUniverse → List String)
    (data : List (String × List AlpacaBar)) (s : SavedStrategy)
    (ha : availableSymbolsOf tickerMap data s ≠ []) :
    5 < (timelineOf tickerMap data s).length := by
  rcases h : availableSymbolsOf tickerMap data s with _ | ⟨sym, rest⟩
  · exact absurd h ha
  · have hsym : sym ∈ availableSymbolsOf tickerMap data s := by
      rw [h]
      exact List.mem_cons_self sym rest
    unfold availableSymbolsOf at hsym
    obtain ⟨-, hpred⟩ := List.mem_filter.mp hsym
    unfold timelineOf
    rw [h]
    simp only [List.headD_cons]
    rcases hlook : lookupBars data sym with _ | bars
    · rw [hlook] at hpred
      simp at hpred
    · rw [hlook] at hpred
      simp only at hpred
      simpa using hpred

/-- One strategy pass preserves every existing P&L key. -/
theorem simStrategy_keys_mono (cfg : RunConfig) (params : SimParams)
    (symbolAssetClass : String → Option AssetClass)
    (tickerMap : AssetUniverse → List String)
    (data : List (String × List AlpacaBar)) (oracle : Oracle)
    (sIdx : ℕ) (s : SavedStrategy) (st : SimState) (k : String)
    (hk : k ∈ st.dailyPnl.map Prod.fst) :
    k ∈ (simStrategy cfg params symbolAssetClass tickerMap data oracle
      sIdx s st).dailyPnl.map Prod.fst := by
  simp only [simStrategy]
  split
  · exact hk
  · exact foldl_preserve _ (fun st => k ∈ st.dailyPnl.map Prod.fst)
      (fun st i h => simBarStep_keys_mono cfg params symbolAssetClass data s
        _ _ oracle sIdx st i k h) _ st hk

/-- A strategy pass over an available symbol records every timeline date
from index 5 on in the P&L map, whatever state it starts from. -/
theorem simStrategy_date_mem (cfg : RunConfig) (params : SimParams)
    (symbolAssetClass : String → Option AssetClass)
    (tickerMap : AssetUniverse → List String)
    (data : List (String × List AlpacaBar)) (oracle : Oracle)
    (sIdx : ℕ) (s : SavedStrategy) (st : SimState) (i : ℕ)
    (ha : availableSymbolsOf tickerMap data s ≠ [])
    (h5 : 5 ≤ i) (hlen : i < (timelineOf tickerMap data s).length) :
    dateOf (((timelineOf tickerMap data s).getD i default).t) ∈
      (simStrategy cfg params symbolAssetClass tickerMap data oracle
        sIdx s st).dailyPnl.map Prod.fst := by
  simp only [simStrategy]
  split
  · next hempt =>
    exact absurd (List.isEmpty_iff.mp hempt) ha
  · exact foldl_establish _
      (fun st => dateOf (((timelineOf tickerMap data s).getD i default).t) ∈
        st.dailyPnl.map Prod.fst)
      (fun st j h => simBarStep_keys_mono cfg params symbolAssetClass data s
        _ _ oracle sIdx st j _ h)
      _ i (mem_range_drop h5 hlen)
      (fun st => simBarStep_date_mem cfg params symbolAssetClass data s
        _ _ oracle sIdx st i) st

/-- The full simulation records every timeline date (from index 5 on) of
every selected strategy that has an available symbol. -/
theorem simulate_date_mem (cfg : RunConfig) (params : SimParams)
    (symbolAssetClass : String → Option AssetClass)
    (tickerMap : AssetUniverse → List String)
    (data : List (String × List AlpacaBar)) (oracle : Oracle)
    (selectedStrategies : List SavedStrategy) (s : SavedStrategy)
    (hs : s ∈ selectedStrategies)
    (ha : availableSymbolsOf tickerMap data s ≠ []) (i : ℕ)
    (h5 : 5 ≤ i) (hlen : i < (timelineOf tickerMap data s).length) :
    dateOf (((timelineOf tickerMap data s).getD i default).t) ∈
      (simulate cfg params symbolAssetClass tickerMap data oracle
        selectedStrategies).dailyPnl.map Prod.fst := by
  obtain ⟨n, hn⟩ := List.mem_iff_getElem?.mp hs
  have hmem : (n, s) ∈ selectedStrategies.enum :=
    List.mk_mem_enum_iff_getElem?.mpr hn
  unfold simulate
  exact foldl_establish _
    (fun st => dateOf (((timelineOf tickerMap data s).getD i default).t) ∈
      st.dailyPnl.map Prod.fst)
    (fun st p h => simStrategy_keys_mono cfg params symbolAssetClass tickerMap
      data oracle p.1 p.2 st _ h)
    _ (n, s) hmem
    (fun st => simStrategy_date_mem cfg params symbolAssetClass tickerMap data
      oracle n s st i ha h5 hlen) _

/-- The curve walk emits exactly one point per date, in order. -/
theorem curveGo_dates (cap : ℚ) (spyMap : List (String × ℚ))
    (spyInit : Option ℚ) (m : List (String × ℚ)) :
    ∀ (dates : List String) (v pk sv : ℚ),
      (curveGo cap spyMap spyInit m v pk sv dates).map
        (fun p => p.date) = dates := by
  intro dates
  induction dates with
  | nil => intro v pk sv; rfl
  | cons d rest ih =>
    intro v pk sv
    simp only [curveGo, List.map_cons]
    rw [ih]

/-- `insertSorted` permutes a cons. -/
theorem insertSorted_perm (x : String) :
    ∀ l : List String, (insertSorted x l).Perm (x :: l) := by
  intro l
  induction l with
  | nil => exact List.Perm.refl _
  | cons y ys ih =>
    unfold insertSorted
    split
    · exact List.Perm.refl _
    · exact (List.Perm.cons y ih).trans (List.Perm.swap x y ys)

/-- Sorting the keys keeps them (as a permutation). -/
theorem sortStrings_perm (l : List String) : (sortStrings l).Perm l := by
  induction l with
  | nil => exact List.Perm.refl _
  | cons a rest ih =>
    have : sortStrings (a :: rest) = insertSorted a (sortStrings rest) := rfl
    rw [this]
    exact (insertSorted_perm a (sortStrings rest)).trans (List.Perm.cons a ih)

/-- Every P&L key produces a point of the built curve carrying that
date. -/
theorem buildCurve_date_mem (cap : ℚ) (spyData : Option (List AlpacaBar))
    (m : List (String × ℚ)) (d : String) (hd : d ∈ m.map Prod.fst) :
    ∃ p ∈ buildCurve cap spyData m, p.date = d := by
  have hsort : d ∈ sortStrings (m.map Prod.fst) :=
    (sortStrings_perm (m.map Prod.fst)).mem_iff.mpr hd
  have hdates := curveGo_dates cap
    ((spyData.getD []).map (fun b => (dateOf b.t, b.c)))
    ((spyData.bind List.head?).map (fun b => b.c)) m
    (sortStrings (m.map Prod.fst)) cap cap cap
  have : d ∈ (buildCurve cap spyData m).map (fun p => p.date) := by
    unfold buildCurve
    rw [hdates]
    exact hsort
  obtain ⟨p, hp, hpd⟩ := List.mem_map.mp this
  exact ⟨p, hp, hpd⟩

/-- Consecutive curve points differ exactly by the second point's
aggregated P&L. -/
theorem curveGo_chain (cap : ℚ) (spyMap : List (String × ℚ))
    (spyInit : Option ℚ) (m : List (String × ℚ)) :
    ∀ (dates : List String) (v pk sv : ℚ),
      List.Chain' (fun p q : PerformanceDataPoint =>
        q.strategy = p.strategy + pnlGet m q.date)
        (curveGo cap spyMap spyInit m v pk sv dates) := by
  intro dates
  induction dates with
  | nil => intro v pk sv; simp [curveGo]
  | cons d rest ih =>
    intro v pk sv
    simp only [curveGo]
    rw [List.chain'_cons']
    constructor
    · intro q hq
      cases rest with
      | nil => simp [curveGo] at hq
      | cons d2 r2 =>
        simp only [curveGo, List.head?_cons, Option.mem_def,
          Option.some.injEq] at hq
        subst hq
        rfl
    · exact ih _ _ _

/-- If every stored P&L value is zero, every lookup is zero. -/
theorem pnlGet_zero (m : List (String × ℚ))
    (hz : ∀ pr ∈ m, pr.2 = 0) (d : String) : pnlGet m d = 0 := by
  unfold pnlGet
  rcases hf : m.find? (fun p => p.1 == d) with _ | p
  · rw [hf]
    rfl
  · rw [hf]
    simpa using hz p (List.mem_of_find?_eq_some hf)

/-- With an all-zero P&L map the curve stays flat at the initial capital
with zero drawdown. -/
theorem curveGo_flat (cap : ℚ) (spyMap : List (String × ℚ))
    (spyInit : Option ℚ) (m : List (String × ℚ))
    (hz : ∀ d, pnlGet m d = 0) :
    ∀ (dates : List String) (sv : ℚ),
      ∀ p ∈ curveGo cap spyMap spyInit m cap cap sv dates,
        p.strategy = cap ∧ p.drawdown = 0 := by
  intro dates
  induction dates with
  | nil => intro sv p hp; simp [curveGo] at hp
  | cons d rest ih =>
    intro sv p hp
    simp only [curveGo, hz, add_zero, gt_iff_lt, lt_self_iff_false, if_false,
      List.mem_cons] at hp
    rcases hp with rfl | hp
    · exact ⟨rfl, by simp⟩
    · exact ih _ p hp

/-- `pnlEnsure` keeps an all-zero map all-zero (the new key is
initialised to 0). -/
theorem pnlEnsure_zero (m : List (String × ℚ)) (d : String)
    (h : ∀ pr ∈ m, pr.2 = 0) : ∀ pr ∈ pnlEnsure m d, pr.2 = 0 := by
  intro pr hpr
  unfold pnlEnsure at hpr
  split at hpr
  · exact h pr hpr
  · rcases List.mem_append.mp hpr with h1 | h2
    · exact h pr h1
    · simp only [List.mem_singleton] at h2
      rw [h2]

/-- A bar iteration that leaves the trade list empty leaves every stored
P&L value zero. -/
theorem simBarStep_zero_inv (cfg : RunConfig) (params : SimParams)
    (symbolAssetClass : String → Option AssetClass)
    (data : List (String × List AlpacaBar)) (strategy : SavedStrategy)
    (availableSymbols : List String) (timelineBars : List AlpacaBar)
    (oracle : Oracle) (sIdx : ℕ) (st : SimState) (i : ℕ)
    (h : st.allTrades = [] → ∀ pr ∈ st.dailyPnl, pr.2 = 0) :
    (simBarStep cfg params symbolAssetClass data strategy availableSymbols
      timelineBars oracle sIdx st i).allTrades = [] →
    ∀ pr ∈ (simBarStep cfg params symbolAssetClass data strategy
      availableSymbols timelineBars oracle sIdx st i).dailyPnl, pr.2 = 0 := by
  rcases simBarStep_shape cfg params symbolAssetClass data strategy
    availableSymbols timelineBars oracle sIdx st i with heq | ⟨t, heq⟩ <;> rw [heq]
  · intro ht
    exact pnlEnsure_zero _ _ (h ht)
  · intro ht
    exact absurd ht (by simp)

/-- A strategy pass that leaves the trade list empty leaves every stored
P&L value zero. -/
theorem simStrategy_zero_inv (cfg : RunConfig) (params : SimParams)
    (symbolAssetClass : String → Option AssetClass)
    (tickerMap : AssetUniverse → List String)
    (data : List (String × List AlpacaBar)) (oracle : Oracle)
    (sIdx : ℕ) (s : SavedStrategy) (st : SimState)
    (h : st.allTrades = [] → ∀ pr ∈ st.dailyPnl, pr.2 = 0) :
    (simStrategy cfg params symbolAssetClass tickerMap data oracle
      sIdx s st).allTrades = [] →
    ∀ pr ∈ (simStrategy cfg params symbolAssetClass tickerMap data oracle
      sIdx s st).dailyPnl, pr.2 = 0 := by
  simp only [simStrategy]
  split
  · exact h
  · exact foldl_preserve _
      (fun st => st.allTrades = [] → ∀ pr ∈ st.dailyPnl, pr.2 = 0)
      (fun st i hP => simBarStep_zero_inv cfg params symbolAssetClass data s
        _ _ oracle sIdx st i hP) _ st h

/-- A whole simulation that emits zero trades has an all-zero P&L map. -/
theorem simulate_zero_pnl (cfg : RunConfig) (params : SimParams)
    (symbolAssetClass : String → Option AssetClass)
    (tickerMap : AssetUniverse → List String)
    (data : List (String × List AlpacaBar)) (oracle : Oracle)
    (selectedStrategies : List SavedStrategy)
    (htr : (simulate cfg params symbolAssetClass tickerMap data oracle
      selectedStrategies).allTrades = []) :
    ∀ pr ∈ (simulate cfg params symbolAssetClass tickerMap data oracle
      selectedStrategies).dailyPnl, pr.2 = 0 := by
  refine foldl_preserve _
    (fun st => st.allTrades = [] → ∀ pr ∈ st.dailyPnl, pr.2 = 0)
    (fun st p hP => simStrategy_zero_inv cfg params symbolAssetClass tickerMap
      data oracle p.1 p.2 st hP)
    selectedStrategies.enum ⟨[], []⟩ (fun _ pr hpr => absurd hpr (by simp)) htr

/-- C10: whenever some selected strategy has an available symbol (hence a
timeline with more than 5 bars), the daily P&L map receives an entry for
every timeline date from index 5 on — even on dates with no trade — so
the performance curve has one point per such date, consecutive points
with zero aggregated P&L keep the portfolio value unchanged, the curve is
nonempty, and in a run with zero trades every point sits at the initial
capital with zero drawdown. -/
theorem claim_c10_curve_per_date (cfg : RunConfig) (params : SimParams)
    (symbolAssetClass : String → Option AssetClass)
    (tickerMap : AssetUniverse → List String)
    (data : List (String × List AlpacaBar)) (oracle : Oracle)
    (selectedStrategies : List SavedStrategy) (s : SavedStrategy)
    (hs : s ∈ selectedStrategies)
    (ha : availableSymbolsOf tickerMap data s ≠ []) :
    (∀ i, 5 ≤ i → i < (timelineOf tickerMap data s).length →
      ∃ p ∈ buildCurve cfg.initialCapital (lookupBars data "SPY")
        (simulate cfg params symbolAssetClass tickerMap data oracle
          selectedStrategies).dailyPnl,
        p.date = dateOf (((timelineOf tickerMap data s).getD i default).t)) ∧
    buildCurve cfg.initialCapital (lookupBars data "SPY")
      (simulate cfg params symbolAssetClass tickerMap data oracle
        selectedStrategies).dailyPnl ≠ [] ∧
    List.Chain' (fun p q =>
      pnlGet (simulate cfg params symbolAssetClass tickerMap data oracle
        selectedStrategies).dailyPnl q.date = 0 → q.strategy = p.strategy)
      (buildCurve cfg.initialCapital (lookupBars data "SPY")
        (simulate cfg params symbolAssetClass tickerMap data oracle
          selectedStrategies).dailyPnl) ∧
    ((simulate cfg params symbolAssetClass tickerMap data oracle
        selectedStrategies).allTrades = [] →
      ∀ p ∈ buildCurve cfg.initialCapital (lookupBars data "SPY")
        (simulate cfg params symbolAssetClass tickerMap data oracle
          selectedStrategies).dailyPnl,
        p.strategy = cfg.initialCapital ∧ p.drawdown = 0) := by
  have hmemdate : ∀ i, 5 ≤ i → i < (timelineOf tickerMap data s).length →
      ∃ p ∈ buildCurve cfg.initialCapital (lookupBars data "SPY")
        (simulate cfg params symbolAssetClass tickerMap data oracle
          selectedStrategies).dailyPnl,
        p.date = dateOf (((timelineOf tickerMap data s).getD i default).t) := by
    intro i h5 hlen
    exact buildCurve_date_mem cfg.initialCapital (lookupBars data "SPY") _ _
      (simulate_date_mem cfg params symbolAssetClass tickerMap data oracle
        selectedStrategies s hs ha i h5 hlen)
  refine ⟨hmemdate, ?_, ?_, ?_⟩
  · obtain ⟨p, hp, -⟩ := hmemdate 5 le_rfl (timelineOf_long tickerMap data s ha)
    exact List.ne_nil_of_mem hp
  · have hchain := curveGo_chain cfg.initialCapital
      (((lookupBars data "SPY").getD []).map (fun b => (dateOf b.t, b.c)))
      (((lookupBars data "SPY").bind List.head?).map (fun b => b.c))
      (simulate cfg params symbolAssetClass tickerMap data oracle
        selectedStrategies).dailyPnl
      (sortStrings ((simulate cfg params symbolAssetClass tickerMap data oracle
        selectedStrategies).dailyPnl.map Prod.fst)) cfg.initialCapital
      cfg.initialCapital cfg.initialCapital
    refine List.Chain'.imp ?_ hchain
    intro p q hr hz
    rw [hr, hz, add_zero]
  · intro htr p hp
    have hz := pnlGet_zero _
      (simulate_zero_pnl cfg params symbolAssetClass tickerMap data oracle
        selectedStrategies htr)
    exact curveGo_flat cfg.initialCapital _ _ _ hz _ cfg.initialCapital p hp

/-- C10 witness: the theorem at the concrete zero-trade run on six flat
`SPY` bars. -/
theorem claim_c10_curve_per_date_witness :
    (∀ i, 5 ≤ i → i < (timelineOf (fun _ => []) [("SPY", flatBars)] spyStrategy).length →
      ∃ p ∈ buildCurve plainConfig.initialCapital
        (lookupBars [("SPY", flatBars)] "SPY")
        (simulate plainConfig (getSimulationParams .d1) (fun _ => none)
          (fun _ => []) [("SPY", flatBars)] idleOracle [spyStrategy]).dailyPnl,
        p.date = dateOf (((timelineOf (fun _ => []) [("SPY", flatBars)]
          spyStrategy).getD i default).t)) ∧
    buildCurve plainConfig.initialCapital (lookupBars [("SPY", flatBars)] "SPY")
      (simulate plainConfig (getSimulationParams .d1) (fun _ => none)
        (fun _ => []) [("SPY", flatBars)] idleOracle [spyStrategy]).dailyPnl ≠ [] ∧
    List.Chain' (fun p q =>
      pnlGet (simulate plainConfig (getSimulationParams .d1) (fun _ => none)
        (fun _ => []) [("SPY", flatBars)] idleOracle [spyStrategy]).dailyPnl
        q.date = 0 → q.strategy = p.strategy)
      (buildCurve plainConfig.initialCapital (lookupBars [("SPY", flatBars)] "SPY")
        (simulate plainConfig (getSimulationParams .d1) (fun _ => none)
          (fun _ => []) [("SPY", flatBars)] idleOracle [spyStrategy]).dailyPnl) ∧
    ((simulate plainConfig (getSimulationParams .d1) (fun _ => none)
        (fun _ => []) [("SPY", flatBars)] idleOracle [spyStrategy]).allTrades = [] →
      ∀ p ∈ buildCurve plainConfig.initialCapital
        (lookupBars [("SPY", flatBars)] "SPY")
        (simulate plainConfig (getSimulationParams .d1) (fun _ => none)
          (fun _ => []) [("SPY", flatBars)] idleOracle [spyStrategy]).dailyPnl,
        p.strategy = plainConfig.initialCapital ∧ p.drawdown = 0) :=
  claim_c10_curve_per_date plainConfig (getSimulationParams .d1) (fun _ => none)
    (fun _ => []) [("SPY", flatBars)] idleOracle [spyStrategy] spyStrategy
    (List.mem_cons_self spyStrategy []) (by decide)

/-! ## Claims about the Risk Metrics Calculator -/

/-- The finiteness coercion always yields a finite number. -/
theorem jsCoerceFinite_isFinite (x : JsNum) :
    (jsCoerceFinite x).isFinite = true := by
  cases x <;> simp [jsCoerceFinite, JsNum.isFinite]

/-- The finiteness coercion maps every non-finite number to 0. -/
theorem jsCoerceFinite_not_finite (x : JsNum)
    (h : ¬ x.isFinite = true) : jsCoerceFinite x = .fin 0 := by
  unfold jsCoerceFinite
  rw [if_neg h]

/-- C7: (a) with no strictly negative per-period return the downside
deviation is exactly 0 and the Sortino output is exactly 0 (finite);
(b) the Calmar output is 0 whenever the maximum drawdown is 0; (c) both
outputs are always finite, and a non-finite raw ratio is coerced to 0
rather than propagated.  The injected `Math.sqrt` is only assumed to send
`0` to `0` and `barsPerYear` to something finite, which IEEE square root
satisfies. -/
theorem claim_c7_ratio_guards (sqrtF : JsNum → JsNum)
    (powF : JsNum → JsNum → JsNum) (pd : List PerformanceDataPoint)
    (riskFreeRate barsPerYear : ℚ)
    (hs0 : sqrtF (.fin 0) = .fin 0)
    (hsb : ∃ q : ℚ, sqrtF (.fin barsPerYear) = .fin q) :
    ((∀ r ∈ dailyReturnsOf pd, 0 ≤ r) →
      downsideDeviationOf sqrtF pd barsPerYear = .fin 0 ∧
      (calculateAdvancedRatios sqrtF powF pd riskFreeRate barsPerYear).sortino
        = .fin 0) ∧
    (jsMathMax (pd.map (fun p => p.drawdown)) = .fin 0 →
      (calculateAdvancedRatios sqrtF powF pd riskFreeRate barsPerYear).calmar
        = .fin 0) ∧
    ((calculateAdvancedRatios sqrtF powF pd riskFreeRate
        barsPerYear).sortino.isFinite = true ∧
      (calculateAdvancedRatios sqrtF powF pd riskFreeRate
        barsPerYear).calmar.isFinite = true) ∧
    (¬ (rawRatios sqrtF powF pd riskFreeRate barsPerYear).sortino.isFinite
        = true →
      (calculateAdvancedRatios sqrtF powF pd riskFreeRate barsPerYear).sortino
        = .fin 0) ∧
    (¬ (rawRatios sqrtF powF pd riskFreeRate barsPerYear).calmar.isFinite
        = true →
      (calculateAdvancedRatios sqrtF powF pd riskFreeRate barsPerYear).calmar
        = .fin 0) := by
  obtain ⟨q, hq⟩ := hsb
  refine ⟨?_, ?_, ?_, ?_, ?_⟩
  · intro hnoneg
    have hfe : (dailyReturnsOf pd).filter (fun r => r < 0) = [] := by
      rw [List.filter_eq_nil_iff]
      intro a ha
      simpa using not_lt.mpr (hnoneg a ha)
    have hdd : downsideDeviationOf sqrtF pd barsPerYear = .fin 0 := by
      simp only [downsideDeviationOf, hfe, List.length_nil, List.map_nil,
        List.sum_nil]
      norm_num [hs0, hq, jsMul]
    refine ⟨hdd, ?_⟩
    by_cases hlen : pd.length < 2
    · simp [calculateAdvancedRatios, hlen]
    · simp only [calculateAdvancedRatios, if_neg hlen, rawRatios, hdd]
      norm_num [jsLtB, jsCoerceFinite, JsNum.isFinite]
  · intro hmax
    by_cases hlen : pd.length < 2
    · simp [calculateAdvancedRatios, hlen]
    · simp only [calculateAdvancedRatios, if_neg hlen, rawRatios, hmax]
      norm_num [jsLtB, jsCoerceFinite, JsNum.isFinite]
  · by_cases hlen : pd.length < 2
    · simp [calculateAdvancedRatios, hlen, JsNum.isFinite]
    · simp only [calculateAdvancedRatios, if_neg hlen]
      exact ⟨jsCoerceFinite_isFinite _, jsCoerceFinite_isFinite _⟩
  · intro hnf
    by_cases hlen : pd.length < 2
    · simp [calculateAdvancedRatios, hlen]
    · simp only [calculateAdvancedRatios, if_neg hlen]
      exact jsCoerceFinite_not_finite _ hnf
  · intro hnf
    by_cases hlen : pd.length < 2
    · simp [calculateAdvancedRatios, hlen]
    · simp only [calculateAdvancedRatios, if_neg hlen]
      exact jsCoerceFinite_not_finite _ hnf

/-- C7 witness: the guards at a concrete two-point rising curve (one
positive return, zero max drawdown) with the identity as the injected
square root. -/
theorem claim_c7_ratio_guards_witness :
    ((∀ r ∈ dailyReturnsOf
        [⟨"2024-01-01", 100, 100, 0⟩, ⟨"2024-01-02", 110, 100, 0⟩], 0 ≤ r) →
      downsideDeviationOf (fun x => x)
        [⟨"2024-01-01", 100, 100, 0⟩, ⟨"2024-01-02", 110, 100, 0⟩] 252 = .fin 0 ∧
      (calculateAdvancedRatios (fun x => x) (fun x _ => x)
        [⟨"2024-01-01", 100, 100, 0⟩, ⟨"2024-01-02", 110, 100, 0⟩]
        (2 / 100) 252).sortino = .fin 0) ∧
    (jsMathMax ([⟨"2024-01-01", 100, 100, 0⟩,
        (⟨"2024-01-02", 110, 100, 0⟩ : PerformanceDataPoint)].map
        (fun p => p.drawdown)) = .fin 0 →
      (calculateAdvancedRatios (fun x => x) (fun x _ => x)
        [⟨"2024-01-01", 100, 100, 0⟩, ⟨"2024-01-02", 110, 100, 0⟩]
        (2 / 100) 252).calmar = .fin 0) ∧
    ((calculateAdvancedRatios (fun x => x) (fun x _ => x)
        [⟨"2024-01-01", 100, 100, 0⟩, ⟨"2024-01-02", 110, 100, 0⟩]
        (2 / 100) 252).sortino.isFinite = true ∧
      (calculateAdvancedRatios (fun x => x) (fun x _ => x)
        [⟨"2024-01-01", 100, 100, 0⟩, ⟨"2024-01-02", 110, 100, 0⟩]
        (2 / 100) 252).calmar.isFinite = true) ∧
    (¬ (rawRatios (fun x => x) (fun x _ => x)
        [⟨"2024-01-01", 100, 100, 0⟩, ⟨"2024-01-02", 110, 100, 0⟩]
        (2 / 100) 252).sortino.isFinite = true →
      (calculateAdvancedRatios (fun x => x) (fun x _ => x)
        [⟨"2024-01-01", 100, 100, 0⟩, ⟨"2024-01-02", 110, 100, 0⟩]
        (2 / 100) 252).sortino = .fin 0) ∧
    (¬ (rawRatios (fun x => x) (fun x _ => x)
        [⟨"2024-01-01", 100, 100, 0⟩, ⟨"2024-01-02", 110, 100, 0⟩]
        (2 / 100) 252).calmar.isFinite = true →
      (calculateAdvancedRatios (fun x => x) (fun x _ => x)
        [⟨"2024-01-01", 100, 100, 0⟩, ⟨"2024-01-02", 110, 100, 0⟩]
        (2 / 100) 252).calmar = .fin 0) :=
  claim_c7_ratio_guards (fun x => x) (fun x _ => x)
    [⟨"2024-01-01", 100, 100, 0⟩, ⟨"2024-01-02", 110, 100, 0⟩]
    (2 / 100) 252 rfl ⟨252, rfl⟩

end TradingPlatform
